import Mathlib

/-!
triangle.c: a shallow embedding of the D3D12 triangle renderer

The program is one C file that drives the Direct3D 12 and DXGI interfaces.
Everything outside the file (the driver, the GPU, the window system) is an
environment: each function of the file is embedded as a function of the program
state and of an environment record that gives the status code of every API call
the function makes, in the order the source makes them.  Every call is appended
to a log (`State.calls`), so that orderings of calls can be stated.

Conventions
* `uint32_t` and `size_t` values are `Nat` with explicit reduction modulo
  `2 ^ 32` and `2 ^ 64`.
* `float` values are the rationals they denote.  The float32 arithmetic of lines
  590-596 is the exact operation followed by rounding to the nearest float32, ties to
  even; the exponent range is not modelled, which no quotient of two `uint32_t` values
  leaves.
* A function that can block for ever returns `Option`, with `none` for blocking.
-/

namespace Triangle

/-! ## Definitions -/

/-- Windows status code. -/
abbrev HRESULT := Int

/-- The Windows SDK test `SUCCEEDED(hr)`, which is `hr >= 0`. -/
def SUCCEEDED (hr : HRESULT) : Bool := decide (0 ≤ hr)

/-- Success status. -/
def S_OK : HRESULT := 0

/-- Generic failure status, `0x80004005` as a signed 32-bit value. -/
def E_FAIL : HRESULT := -2147467259

/-- Number of values of a `uint32_t`. -/
def UINT32_SIZE : Nat := 2 ^ 32

/-- Number of values of a `size_t` on the 64-bit target. -/
def SIZE_T_SIZE : Nat := 2 ^ 64

/-- Line 54: `enum { NUM_RENDERTARGETS = 2 }`. -/
def NUM_RENDERTARGETS : Nat := 2

/-- Lines 49-52: `struct windowsize`. -/
structure windowsize where
  width : Nat
  height : Nat
  deriving DecidableEq, Repr

/-- The resource states the program names. -/
inductive D3D12_RESOURCE_STATES
  | PRESENT
  | RENDER_TARGET
  | GENERIC_READ
  deriving DecidableEq, Repr

/-- The primitive topologies of the input assembler (the program names one). -/
inductive D3D_PRIMITIVE_TOPOLOGY
  | POINTLIST
  | LINELIST
  | LINESTRIP
  | TRIANGLELIST
  | TRIANGLESTRIP
  deriving DecidableEq, Repr

/-- The viewport record filled in at lines 125-132. -/
structure D3D12_VIEWPORT where
  TopLeftX : ℚ
  TopLeftY : ℚ
  Width : ℚ
  Height : ℚ
  MinDepth : ℚ
  MaxDepth : ℚ
  deriving DecidableEq, Repr

/-- The rectangle record filled in at lines 134-137 (fields are `LONG`). -/
structure D3D12_RECT where
  left : Int
  top : Int
  right : Int
  bottom : Int
  deriving DecidableEq, Repr

/-- Conversion of a `uint32_t` to the signed 32-bit `LONG`. -/
def toLONG (n : Nat) : Int :=
  if n % UINT32_SIZE < 2 ^ 31 then (n % UINT32_SIZE : Nat) else (n % UINT32_SIZE : Nat) - (UINT32_SIZE : Int)

/-- A transition barrier (lines 144-153): the resource and its states before and after.
All barriers of the program have type TRANSITION, no flags, and all subresources. -/
structure D3D12_RESOURCE_BARRIER where
  pResource : Nat
  StateBefore : D3D12_RESOURCE_STATES
  StateAfter : D3D12_RESOURCE_STATES
  deriving DecidableEq, Repr

/-- The vertex buffer view of lines 640-644. -/
structure D3D12_VERTEX_BUFFER_VIEW where
  BufferLocation : Nat
  StrideInBytes : Nat
  SizeInBytes : Nat
  deriving DecidableEq, Repr

/-- Lines 31-45: the CPU handle of descriptor `index`.  The heap start and the increment
size are what the two driver queries return; `handle.ptr` is a `size_t`. -/
def get_descriptor_handle_d3d12 (heapStart incrementSize index : Nat) : Nat :=
  if index > 0 then
    (heapStart + (index * incrementSize) % SIZE_T_SIZE) % SIZE_T_SIZE
  else
    heapStart

/-- A command recorded into the command list by `draw` (lines 140-175), with the
arguments the source passes. -/
inductive Cmd
  | SetGraphicsRootSignature
  | RSSetViewports (count : Nat) (viewport : D3D12_VIEWPORT)
  | RSSetScissorRects (count : Nat) (rect : D3D12_RECT)
  | ResourceBarrier (count : Nat) (barrier : D3D12_RESOURCE_BARRIER)
  | OMSetRenderTargets (count : Nat) (rtv : Nat)
  | ClearRenderTargetView (rtv : Nat) (color : List ℚ)
  | IASetPrimitiveTopology (topology : D3D_PRIMITIVE_TOPOLOGY)
  | IASetVertexBuffers (startSlot count : Nat) (view : D3D12_VERTEX_BUFFER_VIEW)
  | DrawInstanced (vertexCount instanceCount startVertex startInstance : Nat)
  deriving DecidableEq, Repr

/-- The objects released at shutdown: the fields of `struct renderer_d3d12` (lines 56-68)
and of `struct resources_d3d12` (lines 70-78). -/
inductive Obj
  | debug
  | factory
  | adapter
  | device
  | queue
  | swapchain
  | rtvDescriptorHeap
  | commandAllocator
  | rootSignature
  | pipeline
  | cmdlist
  | target (i : Nat)
  | vertexBuffer
  | fence
  | fenceEvent
  deriving DecidableEq, Repr

/-- The two shader entry points compiled at lines 468 and 473. -/
inductive ShaderEntry
  | VSMain
  | PSMain
  deriving DecidableEq, Repr

/-- One API call of the program, with the arguments that matter and the status the
environment returned. -/
inductive Call
  | RegisterClassEx (ok : Bool)
  | CreateWindowEx (ok : Bool)
  | D3D12GetDebugInterface (hr : HRESULT)
  | EnableDebugLayer
  | CreateDXGIFactory2 (hr : HRESULT)
  | EnumAdapters1 (i : Nat) (adapter : Option Nat)
  | GetDesc1 (adapter : Nat)
  | D3D12CreateDevice (adapter : Nat) (wantDevice : Bool) (hr : HRESULT)
  | CreateCommandQueue (hr : HRESULT)
  | CreateSwapChainForHwnd (hr : HRESULT)
  | MakeWindowAssociation
  | GetCurrentBackBufferIndex (result : Nat)
  | CreateDescriptorHeap (hr : HRESULT)
  | GetBuffer (i : Nat) (hr : HRESULT)
  | CreateRenderTargetView (resource handle : Nat)
  | CreateCommandAllocator (hr : HRESULT)
  | SerializeVersionedRootSignature (hr : HRESULT)
  | CreateRootSignature (hr : HRESULT)
  | D3DCompile (entry : ShaderEntry) (hr : HRESULT)
  | CreateGraphicsPipelineState (hr : HRESULT)
  | CreateCommandList (hr : HRESULT)
  | CreateCommittedResource (hr : HRESULT)
  | Map (hr : HRESULT)
  | memcpy (bytes : Nat)
  | Unmap
  | CreateFence (initialValue : Nat) (hr : HRESULT)
  | CreateEvent (ok : Bool)
  | CommandAllocator_Reset (hr : HRESULT)
  | GraphicsCommandList_Reset (hr : HRESULT)
  | Record (c : Cmd)
  | GraphicsCommandList_Close (hr : HRESULT)
  | ExecuteCommandLists
  | Present1 (hr : HRESULT)
  | Signal (value : Nat) (hr : HRESULT)
  | GetCompletedValue (result : Nat)
  | SetEventOnCompletion (value : Nat) (hr : HRESULT)
  | WaitForSingleObject
  | Release (o : Obj)
  | CloseHandle (o : Obj)
  deriving DecidableEq, Repr

/-- Work submitted to the command queue that the GPU has not executed yet. -/
inductive QueueItem
  | exec
  | signal (v : Nat)
  deriving DecidableEq, Repr

/-- The GPU executes one queue item.  A command list leaves the fence alone; a signal
raises the completed value of the fence to the signalled value. -/
def gpuStep (completed : Nat) : QueueItem → Nat
  | .exec => completed
  | .signal v => max completed v

/-- The GPU executes the first `n` items of the queue (all of them when there are fewer). -/
def gpuRun : Nat → Nat → List QueueItem → Nat × List QueueItem
  | 0, c, q => (c, q)
  | _ + 1, c, [] => (c, [])
  | n + 1, c, item :: rest => gpuRun n (gpuStep c item) rest

/-- The event registered for value `v` is set once the completed value has reached `v`:
the GPU executes queue items until then.  When the queue runs dry before `v` is
reached the event is never set and the wait does not return (`none`). -/
def waitEvent (v : Nat) : Nat → List QueueItem → Option (Nat × List QueueItem)
  | c, [] => if v ≤ c then some (c, []) else none
  | c, item :: rest => if v ≤ c then some (c, item :: rest) else waitEvent v (gpuStep c item) rest

/-- The program state: the two mutable fields of `struct resources_d3d12`, the fence and
queue on the GPU side, and the log of API calls made so far. -/
structure State where
  fenceValue : Nat
  frameIndex : Nat
  completed : Nat
  queue : List QueueItem
  calls : List Call
  deriving DecidableEq, Repr

/-- The values held in `renderer_d3d12` and `resources_d3d12` that do not change after
startup.  `targets` is the array `resources->targets`, read as a function of the index;
the array elements are the indices below `NUM_RENDERTARGETS`.  `vertexData` is the
content of the vertex buffer after the copy of line 637. -/
structure Handles where
  targets : Nat → Nat
  heapStart : Nat
  rtvIncrement : Nat
  vertexBufferView : D3D12_VERTEX_BUFFER_VIEW
  vertexData : List ℚ

/-- What the environment answers during one call of `wait_for_frame`. -/
structure WaitEnv where
  signal : HRESULT
  gpuSteps : Nat
  setEvent : HRESULT
  backBufferIndex : Nat
  deriving DecidableEq, Repr

/-- Lines 86-107.  `gpuSteps` is the number of queue items the GPU executes between the
signal and the read of the completed value.  A signal that succeeds is queued behind
the work submitted before it.  When the registration of the event fails, the source
reports it and waits all the same (lines 100-103); the event is then never set, and the
wait without timeout does not return. -/
def wait_for_frame (env : WaitEnv) (s : State) : Option State :=
  let value := s.fenceValue
  let s1 : State := { s with calls := s.calls ++ [Call.Signal value env.signal] }
  if !SUCCEEDED env.signal then
    some s1
  else
    let g := gpuRun env.gpuSteps s1.completed (s1.queue ++ [QueueItem.signal value])
    let s2 : State :=
      { s1 with
        fenceValue := (s1.fenceValue + 1) % UINT32_SIZE
        completed := g.1
        queue := g.2
        calls := s1.calls ++ [Call.GetCompletedValue g.1] }
    if s2.completed < value then
      let s3 : State :=
        { s2 with
          calls := s2.calls ++ [Call.SetEventOnCompletion value env.setEvent,
                                Call.WaitForSingleObject] }
      if SUCCEEDED env.setEvent then
        match waitEvent value s3.completed s3.queue with
        | none => none
        | some g' =>
          some { s3 with
                 completed := g'.1
                 queue := g'.2
                 frameIndex := env.backBufferIndex
                 calls := s3.calls ++ [Call.GetCurrentBackBufferIndex env.backBufferIndex] }
      else
        none
    else
      some { s2 with
             frameIndex := env.backBufferIndex
             calls := s2.calls ++ [Call.GetCurrentBackBufferIndex env.backBufferIndex] }

/-- What the environment answers during one call of `draw`. -/
structure DrawEnv where
  allocatorReset : HRESULT
  cmdlistReset : HRESULT
  close : HRESULT
  present : HRESULT
  deriving DecidableEq, Repr

/-- Lines 125-175: the commands `draw` records between the reset and the close of the
command list. -/
def recordedCommands (r : Handles) (frameIndex : Nat) (ws : windowsize) : List Cmd :=
  let viewport : D3D12_VIEWPORT :=
    { TopLeftX := 0.0, TopLeftY := 0.0, Width := (ws.width : ℚ), Height := (ws.height : ℚ),
      MinDepth := 0.0, MaxDepth := 0.0 }
  let scissorRect : D3D12_RECT :=
    { left := 0, right := toLONG ws.width, top := 0, bottom := toLONG ws.height }
  let toRenderTargetBarrier : D3D12_RESOURCE_BARRIER :=
    { pResource := r.targets frameIndex
      StateBefore := D3D12_RESOURCE_STATES.PRESENT
      StateAfter := D3D12_RESOURCE_STATES.RENDER_TARGET }
  let rtvHandle := get_descriptor_handle_d3d12 r.heapStart r.rtvIncrement frameIndex
  let clearcolor : List ℚ := [0.05, 0.05, 0.05, 1.0]
  let toPresentBarrier : D3D12_RESOURCE_BARRIER :=
    { toRenderTargetBarrier with
      StateBefore := D3D12_RESOURCE_STATES.RENDER_TARGET
      StateAfter := D3D12_RESOURCE_STATES.PRESENT }
  [ Cmd.SetGraphicsRootSignature,
    Cmd.RSSetViewports 1 viewport,
    Cmd.RSSetScissorRects 1 scissorRect,
    Cmd.ResourceBarrier 1 toRenderTargetBarrier,
    Cmd.OMSetRenderTargets 1 rtvHandle,
    Cmd.ClearRenderTargetView rtvHandle clearcolor,
    Cmd.IASetPrimitiveTopology D3D_PRIMITIVE_TOPOLOGY.TRIANGLELIST,
    Cmd.IASetVertexBuffers 0 1 r.vertexBufferView,
    Cmd.DrawInstanced 3 1 0 0,
    Cmd.ResourceBarrier 1 toPresentBarrier ]

/-- Lines 109-194. -/
def draw (r : Handles) (ws : windowsize) (env : DrawEnv) (s : State) : State :=
  let s1 : State := { s with calls := s.calls ++ [Call.CommandAllocator_Reset env.allocatorReset] }
  if !SUCCEEDED env.allocatorReset then
    s1
  else
    let s2 : State := { s1 with calls := s1.calls ++ [Call.GraphicsCommandList_Reset env.cmdlistReset] }
    if !SUCCEEDED env.cmdlistReset then
      s2
    else
      let s3 : State :=
        { s2 with
          calls := s2.calls ++ (recordedCommands r s2.frameIndex ws).map Call.Record
                     ++ [Call.GraphicsCommandList_Close env.close] }
      -- a failed close is reported (line 178) and execution goes on
      let s4 : State :=
        { s3 with
          queue := s3.queue ++ [QueueItem.exec]
          calls := s3.calls ++ [Call.ExecuteCommandLists] }
      { s4 with calls := s4.calls ++ [Call.Present1 env.present] }

/-- The calls logged between state `s` and a later state `s'`. -/
def newCalls (s s' : State) : List Call := s'.calls.drop s.calls.length

/-- The barrier of a logged call, when the call records a resource barrier. -/
def Call.barrier? : Call → Option D3D12_RESOURCE_BARRIER
  | .Record (.ResourceBarrier _ b) => some b
  | _ => none

/-- Whether a logged call records a draw command. -/
def Call.isDrawCommand : Call → Bool
  | .Record (.DrawInstanced _ _ _ _) => true
  | _ => false

/-- Whether a logged call submits work or presents. -/
def Call.isSubmission : Call → Bool
  | .ExecuteCommandLists => true
  | .Present1 _ => true
  | _ => false

/-- The rule of the API for a transition barrier: it is valid when the resource is in
the state the barrier names as `StateBefore`, and it moves the resource to `StateAfter`. -/
def applyBarrier (st : Nat → D3D12_RESOURCE_STATES) (b : D3D12_RESOURCE_BARRIER) :
    Option (Nat → D3D12_RESOURCE_STATES) :=
  if st b.pResource = b.StateBefore then
    some (Function.update st b.pResource b.StateAfter)
  else
    none

/-- The barriers of a list applied in order; `none` as soon as one is not valid. -/
def applyBarriers : List D3D12_RESOURCE_BARRIER → (Nat → D3D12_RESOURCE_STATES) →
    Option (Nat → D3D12_RESOURCE_STATES)
  | [], st => some st
  | b :: bs, st =>
    match applyBarrier st b with
    | none => none
    | some st' => applyBarriers bs st'

/-- What the environment answers during one paint notification. -/
structure PaintEnv where
  draw : DrawEnv
  wait : WaitEnv
  deriving DecidableEq, Repr

/-- The window messages `WindowProc` and the main loop tell apart. -/
inductive Msg
  | WM_CREATE
  | WM_DESTROY
  | WM_CLOSE
  | WM_PAINT (env : PaintEnv)
  | WM_QUIT
  | WM_OTHER
  deriving DecidableEq, Repr

/-- Lines 196-223.  Only a paint notification touches the renderer. -/
def WindowProc (r : Handles) (ws : windowsize) : Msg → State → Option State
  | .WM_PAINT env, s => wait_for_frame env.wait (draw r ws env.draw s)
  | _, s => some s

/-- A sequence of paint notifications, each handled by `WindowProc`. -/
def paints (r : Handles) (ws : windowsize) : List PaintEnv → State → Option State
  | [], s => some s
  | e :: es, s =>
    match WindowProc r ws (Msg.WM_PAINT e) s with
    | none => none
    | some s' => paints r ws es s'

/-- Size of a `float` in bytes. -/
def sizeof_float : Nat := 4

/-- The integer nearest to `y`, the even one of the two when `y` lies half-way. -/
def roundHalfEven (y : ℚ) : ℤ :=
  if y - ⌊y⌋ < 1 / 2 then ⌊y⌋
  else if 1 / 2 < y - ⌊y⌋ then ⌊y⌋ + 1
  else if ⌊y⌋ % 2 = 0 then ⌊y⌋ else ⌊y⌋ + 1

/-- The float32 nearest to a positive `x`, ties to even: with `e` the exponent of `x`
(`2 ^ e ≤ x < 2 ^ (e + 1)`), the 24-bit significand is `x / 2 ^ (e - 23)` rounded to an
integer. -/
def roundFloat32Pos (x : ℚ) : ℚ :=
  (roundHalfEven (x * 2 ^ (23 - Int.log 2 x)) : ℚ) * 2 ^ (Int.log 2 x - 23)

/-- The float32 nearest to `x` (IEEE 754 round to nearest, ties to even), for `x` within
the exponent range of float32. -/
def roundFloat32 (x : ℚ) : ℚ :=
  if 0 < x then roundFloat32Pos x
  else if x < 0 then -roundFloat32Pos (-x)
  else 0

/-- The conversion `(float)n` of a `uint32_t`. -/
def toFloat32 (n : Nat) : ℚ := roundFloat32 (n : ℚ)

/-- The float32 quotient: the exact quotient, rounded.  (A zero divisor, which gives an
infinity or a NaN in the source, is outside the model.) -/
def fdiv (x y : ℚ) : ℚ := roundFloat32 (x / y)

/-- The float32 product: the exact product, rounded. -/
def fmul (x y : ℚ) : ℚ := roundFloat32 (x * y)

/-- Lines 592-597: the vertex array, for the aspect ratio of line 590.  The literals are
float32 values; the two products are float32 products. -/
def vertices (aspect : ℚ) : List ℚ :=
  [ 0.00, fmul 0.25 aspect, 0.0,  1, 0, 0, 0,
    0.25, fmul (-0.25) aspect, 0.0,  0, 1, 0, 0,
   -0.25, fmul (-0.25) aspect, 0.0,  0, 0, 1, 0 ]

/-- Line 590: `(float)ws.width / (float)ws.height`, the aspect ratio of the window as a
float32. -/
def aspectOf (ws : windowsize) : ℚ := fdiv (toFloat32 ws.width) (toFloat32 ws.height)

/-- The value of `sizeof(vertices)`: the array has 21 elements whatever the aspect. -/
def sizeof_vertices : Nat := sizeof_float * (vertices 0).length

/-- The window size of lines 245-246. -/
def sampleWindow : windowsize := { width := 1280, height := 720 }

/-- Sample handles: back buffers 100 and 101, RTV heap at 4096 with increment 32. -/
def sampleHandles : Handles :=
  { targets := fun i => 100 + i
    heapStart := 4096
    rtvIncrement := 32
    vertexBufferView :=
      { BufferLocation := 65536
        StrideInBytes := sizeof_float * (3 + 4)
        SizeInBytes := sizeof_vertices }
    vertexData := vertices (aspectOf sampleWindow) }

/-- A state between frames: counter 2, fence at 1, idle queue, empty log. -/
def sampleState : State :=
  { fenceValue := 2, frameIndex := 0, completed := 1, queue := [], calls := [] }

/-- An environment in which every call of `wait_for_frame` succeeds and the GPU has made
no progress when the completed value is read. -/
def waitOk : WaitEnv := { signal := S_OK, gpuSteps := 0, setEvent := S_OK, backBufferIndex := 1 }

/-- An environment in which every call of `draw` succeeds. -/
def drawOk : DrawEnv := { allocatorReset := S_OK, cmdlistReset := S_OK, close := S_OK, present := S_OK }

/-- An environment in which the close of the command list fails and all else succeeds. -/
def drawCloseFails : DrawEnv :=
  { allocatorReset := S_OK, cmdlistReset := S_OK, close := E_FAIL, present := S_OK }

/-- The barriers recorded by the calls logged between `s` and `s'`, in order. -/
def recordedBarriers (s s' : State) : List D3D12_RESOURCE_BARRIER :=
  (newCalls s s').filterMap Call.barrier?

/-- Sample resource states: every resource is in the PRESENT state. -/
def allPresent : Nat → D3D12_RESOURCE_STATES := fun _ => D3D12_RESOURCE_STATES.PRESENT

/-- `return false;` in a function that returns `int`: `false` is the constant 0 of
`stdbool.h`. -/
def returnFalse : Int := 0

/-- The flag bit `DXGI_ADAPTER_FLAG_SOFTWARE` of the DXGI headers. -/
def DXGI_ADAPTER_FLAG_SOFTWARE : Nat := 2

/-- An adapter as enumeration presents it: its (non-null) interface pointer, the flags
of its description, and the status of the device-creation probe at feature level 11_0
(line 304, which passes no output pointer and creates nothing). -/
structure Adapter where
  ptr : Nat
  Flags : Nat
  probe : HRESULT
  deriving DecidableEq, Repr

/-- Line 301: the software flag is set. -/
def Adapter.isSoftware (a : Adapter) : Bool := (a.Flags &&& DXGI_ADAPTER_FLAG_SOFTWARE) != 0

/-- An adapter the loop of lines 298-310 stops at: not software, and the probe succeeds. -/
def Adapter.qualifies (a : Adapter) : Bool := !a.isSoftware && SUCCEEDED a.probe

/-- Lines 298-310: the enumeration loop from index `i` on, over the adapters that
remain.  The result is the value of `renderer.adapter` after the loop, with the calls
made.  `EnumAdapters1` follows the COM rule for output pointers: when it reports
`DXGI_ERROR_NOT_FOUND` it stores NULL, here `none`. -/
def selectAdapter : Nat → List Adapter → Option Adapter × List Call
  | i, [] => (none, [Call.EnumAdapters1 i none])
  | i, a :: rest =>
    if a.isSoftware then
      ((selectAdapter (i + 1) rest).1,
        [Call.EnumAdapters1 i (some a.ptr), Call.GetDesc1 a.ptr] ++ (selectAdapter (i + 1) rest).2)
    else if SUCCEEDED a.probe then
      (some a,
        [Call.EnumAdapters1 i (some a.ptr), Call.GetDesc1 a.ptr,
         Call.D3D12CreateDevice a.ptr false a.probe])
    else
      ((selectAdapter (i + 1) rest).1,
        [Call.EnumAdapters1 i (some a.ptr), Call.GetDesc1 a.ptr,
         Call.D3D12CreateDevice a.ptr false a.probe] ++ (selectAdapter (i + 1) rest).2)

/-- What the environment answers during startup, in source order. -/
structure StartupEnv where
  registerClass : Bool
  createWindow : Bool
  buildDebug : Bool
  getDebugInterface : HRESULT
  createFactory : HRESULT
  adapters : List Adapter
  createDevice : HRESULT
  createCommandQueue : HRESULT
  createSwapChain : HRESULT
  backBufferIndex : Nat
  createDescriptorHeap : HRESULT
  heapStart : Nat
  rtvIncrement : Nat
  getBuffer : Nat → HRESULT
  targets : Nat → Nat
  createCommandAllocator : HRESULT
  serializeRootSignature : HRESULT
  createRootSignature : HRESULT
  compileVS : HRESULT
  compilePS : HRESULT
  createPipelineState : HRESULT
  createCommandList : HRESULT
  closeCommandList : HRESULT
  createVertexBuffer : HRESULT
  mapVertexBuffer : HRESULT
  vertexBufferAddress : Nat
  createFence : HRESULT
  createEvent : Bool

/-- Lines 389-396: `n` more iterations of the loop over the back buffers, at index `i`
with the running descriptor handle.  A failed `GetBuffer` returns from `WinMain`. -/
def rtvLoop (env : StartupEnv) : Nat → Nat → Nat → Bool × List Call
  | 0, _, _ => (true, [])
  | n + 1, i, handle =>
    if !SUCCEEDED (env.getBuffer i) then
      (false, [Call.GetBuffer i (env.getBuffer i)])
    else
      ((rtvLoop env n (i + 1) ((handle + env.rtvIncrement) % SIZE_T_SIZE)).1,
        [Call.GetBuffer i (env.getBuffer i), Call.CreateRenderTargetView (env.targets i) handle]
          ++ (rtvLoop env n (i + 1) ((handle + env.rtvIncrement) % SIZE_T_SIZE)).2)

/-- How startup ends: with a return from `WinMain`, or with the renderer ready. -/
inductive StartupResult
  | failed (exitCode : Int) (calls : List Call)
  | ready (r : Handles) (s : State)

/-- The calls made during startup. -/
def StartupResult.calls : StartupResult → List Call
  | .failed _ cs => cs
  | .ready _ s => s.calls

/-- One block of startup: the calls it makes, whether its check passes, and the value
`WinMain` returns when it does not.  A block without a check has `ok := true`. -/
structure Step where
  calls : List Call
  ok : Bool
  exitCode : Int

/-- The blocks run in order, each logging its calls; the first block whose check fails
ends `WinMain` with that block's exit code (`some`).  `none`: all checks passed. -/
def runSteps : List Step → List Call → Option Int × List Call
  | [], c => (none, c)
  | st :: rest, c =>
    if st.ok then runSteps rest (c ++ st.calls) else (some st.exitCode, c ++ st.calls)

/-- Lines 233-310: window class, window, debug layer (compiled in under BUILD_DEBUG),
factory, and the loop over the adapters. -/
def preDeviceSteps (env : StartupEnv) : List Step :=
  [ -- lines 239-243
    { calls := [Call.RegisterClassEx env.registerClass], ok := env.registerClass, exitCode := 1 },
    -- lines 250-264
    { calls := [Call.CreateWindowEx env.createWindow], ok := env.createWindow, exitCode := 1 } ]
  ++ (if env.buildDebug then
      [ -- lines 274-279
        { calls := [Call.D3D12GetDebugInterface env.getDebugInterface],
          ok := SUCCEEDED env.getDebugInterface, exitCode := returnFalse },
        { calls := [Call.EnableDebugLayer], ok := true, exitCode := returnFalse } ]
    else [])
  ++ [ -- lines 291-295
    { calls := [Call.CreateDXGIFactory2 env.createFactory],
      ok := SUCCEEDED env.createFactory, exitCode := returnFalse },
    -- lines 298-310
    { calls := (selectAdapter 0 env.adapters).2, ok := true, exitCode := returnFalse } ]

/-- Lines 317-665: the device, created from the selected adapter, and everything made
from it, up to the fence and its event. -/
def deviceSteps (env : StartupEnv) (adapter : Adapter) : List Step :=
  [ -- lines 318-325
    { calls := [Call.D3D12CreateDevice adapter.ptr true env.createDevice],
      ok := SUCCEEDED env.createDevice, exitCode := returnFalse },
    -- lines 329-335
    { calls := [Call.CreateCommandQueue env.createCommandQueue],
      ok := SUCCEEDED env.createCommandQueue, exitCode := returnFalse },
    -- lines 339-359
    { calls := [Call.CreateSwapChainForHwnd env.createSwapChain],
      ok := SUCCEEDED env.createSwapChain, exitCode := returnFalse },
    -- lines 363-365
    { calls := [Call.MakeWindowAssociation, Call.GetCurrentBackBufferIndex env.backBufferIndex],
      ok := true, exitCode := returnFalse },
    -- lines 368-379
    { calls := [Call.CreateDescriptorHeap env.createDescriptorHeap],
      ok := SUCCEEDED env.createDescriptorHeap, exitCode := returnFalse },
    -- lines 383-396
    { calls := (rtvLoop env NUM_RENDERTARGETS 0
                  (get_descriptor_handle_d3d12 env.heapStart env.rtvIncrement 0)).2,
      ok := (rtvLoop env NUM_RENDERTARGETS 0
                  (get_descriptor_handle_d3d12 env.heapStart env.rtvIncrement 0)).1,
      exitCode := returnFalse },
    -- lines 400-408
    { calls := [Call.CreateCommandAllocator env.createCommandAllocator],
      ok := SUCCEEDED env.createCommandAllocator, exitCode := returnFalse },
    -- lines 421-425
    { calls := [Call.SerializeVersionedRootSignature env.serializeRootSignature],
      ok := SUCCEEDED env.serializeRootSignature, exitCode := returnFalse },
    -- lines 427-436
    { calls := [Call.CreateRootSignature env.createRootSignature],
      ok := SUCCEEDED env.createRootSignature, exitCode := returnFalse },
    -- lines 468-472
    { calls := [Call.D3DCompile ShaderEntry.VSMain env.compileVS],
      ok := SUCCEEDED env.compileVS, exitCode := returnFalse },
    -- lines 473-477
    { calls := [Call.D3DCompile ShaderEntry.PSMain env.compilePS],
      ok := SUCCEEDED env.compilePS, exitCode := returnFalse },
    -- lines 557-562
    { calls := [Call.CreateGraphicsPipelineState env.createPipelineState],
      ok := SUCCEEDED env.createPipelineState, exitCode := returnFalse },
    -- lines 569-579
    { calls := [Call.CreateCommandList env.createCommandList],
      ok := SUCCEEDED env.createCommandList, exitCode := returnFalse },
    -- lines 582-586
    { calls := [Call.GraphicsCommandList_Close env.closeCommandList],
      ok := SUCCEEDED env.closeCommandList, exitCode := returnFalse },
    -- lines 616-628
    { calls := [Call.CreateCommittedResource env.createVertexBuffer],
      ok := SUCCEEDED env.createVertexBuffer, exitCode := returnFalse },
    -- lines 632-636
    { calls := [Call.Map env.mapVertexBuffer],
      ok := SUCCEEDED env.mapVertexBuffer, exitCode := returnFalse },
    -- lines 637-638
    { calls := [Call.memcpy sizeof_vertices, Call.Unmap], ok := true, exitCode := returnFalse },
    -- lines 649-654: the fence is created with the initial value of the counter, 0
    { calls := [Call.CreateFence 0 env.createFence],
      ok := SUCCEEDED env.createFence, exitCode := returnFalse },
    -- lines 659-664
    { calls := [Call.CreateEvent env.createEvent], ok := env.createEvent,
      exitCode := returnFalse } ]

/-- Lines 233-665 of `WinMain`: everything up to and including the creation of the
fence and of its event.  `ws` is the window size of lines 245-246.  On success the
counter has been incremented once from 0 (line 655), the frame index is the one read
at line 365, and the fence holds its initial value 0. -/
def startup (ws : windowsize) (env : StartupEnv) : StartupResult :=
  match runSteps (preDeviceSteps env) [] with
  | (some exitCode, c) => .failed exitCode c
  | (none, c) =>
    -- lines 312-315
    match (selectAdapter 0 env.adapters).1 with
    | none => .failed returnFalse c
    | some adapter =>
      match runSteps (deviceSteps env adapter) c with
      | (some exitCode, c) => .failed exitCode c
      | (none, c) =>
        .ready
          { targets := env.targets
            heapStart := env.heapStart
            rtvIncrement := env.rtvIncrement
            vertexBufferView :=
              { BufferLocation := env.vertexBufferAddress
                StrideInBytes := sizeof_float * (3 + 4)
                SizeInBytes := sizeof_vertices }
            vertexData := vertices (aspectOf ws) }
          { fenceValue := (0 + 1) % UINT32_SIZE
            frameIndex := env.backBufferIndex
            completed := 0
            queue := []
            calls := c }

/-- Lines 679-692: the message loop, over the messages `PeekMessage` hands out.  It ends
at `WM_QUIT`; every other message goes to `WindowProc`.  Without a `WM_QUIT` the loop
does not end (`none`). -/
def mainLoop (r : Handles) (ws : windowsize) : List Msg → State → Option State
  | [], _ => none
  | m :: rest, s =>
    if m = Msg.WM_QUIT then
      some s
    else
      match WindowProc r ws m s with
      | none => none
      | some s' => mainLoop r ws rest s'

/-- Lines 697-719: the releases of the shutdown sequence, in source order.  The debug
interface is non-null exactly in a BUILD_DEBUG build. -/
def shutdownCalls (buildDebug : Bool) : List Call :=
  [Call.Release Obj.vertexBuffer, Call.Release Obj.fence, Call.CloseHandle Obj.fenceEvent]
    ++ (List.range NUM_RENDERTARGETS).map (fun i => Call.Release (Obj.target i))
    ++ (if buildDebug then [Call.Release Obj.debug] else [])
    ++ [Call.Release Obj.factory, Call.Release Obj.adapter, Call.Release Obj.device,
        Call.Release Obj.queue, Call.Release Obj.swapchain, Call.Release Obj.rtvDescriptorHeap,
        Call.Release Obj.commandAllocator, Call.Release Obj.rootSignature,
        Call.Release Obj.pipeline, Call.Release Obj.cmdlist]

/-- What a run of `WinMain` that returns leaves behind: the exit code and the calls. -/
structure Outcome where
  exitCode : Int
  calls : List Call
  deriving DecidableEq, Repr

/-- Lines 225-722.  `first` and `last` answer the two calls of `wait_for_frame` that
`WinMain` makes itself (lines 668 and 694); `msgs` are the messages of the main loop. -/
def WinMain (ws : windowsize) (env : StartupEnv) (first : WaitEnv) (msgs : List Msg)
    (last : WaitEnv) : Option Outcome :=
  match startup ws env with
  | .failed exitCode calls => some { exitCode := exitCode, calls := calls }
  | .ready r s =>
    match wait_for_frame first s with
    | none => none
    | some s1 =>
      match mainLoop r ws msgs s1 with
      | none => none
      | some s2 =>
        match wait_for_frame last s2 with
        | none => none
        | some s3 => some { exitCode := 0, calls := s3.calls ++ shutdownCalls env.buildDebug }

/-- A startup environment in which every call succeeds: a release build, one software
adapter followed by one hardware adapter. -/
def sampleEnv : StartupEnv :=
  { registerClass := true
    createWindow := true
    buildDebug := false
    getDebugInterface := S_OK
    createFactory := S_OK
    adapters := [{ ptr := 11, Flags := 2, probe := S_OK }, { ptr := 12, Flags := 0, probe := S_OK }]
    createDevice := S_OK
    createCommandQueue := S_OK
    createSwapChain := S_OK
    backBufferIndex := 0
    createDescriptorHeap := S_OK
    heapStart := 4096
    rtvIncrement := 32
    getBuffer := fun _ => S_OK
    targets := fun i => 100 + i
    createCommandAllocator := S_OK
    serializeRootSignature := S_OK
    createRootSignature := S_OK
    compileVS := S_OK
    compilePS := S_OK
    createPipelineState := S_OK
    createCommandList := S_OK
    closeCommandList := S_OK
    createVertexBuffer := S_OK
    mapVertexBuffer := S_OK
    vertexBufferAddress := 65536
    createFence := S_OK
    createEvent := true }

/-- Whether a logged call can precede the creation of the device: the window calls, the
debug layer, the factory, the enumeration of adapters, and the device probe that
passes no output pointer.  Every other call creates or uses the device or an object
made from it, or belongs to `draw` or `wait_for_frame`. -/
def Call.beforeDevice : Call → Bool
  | .RegisterClassEx _ => true
  | .CreateWindowEx _ => true
  | .D3D12GetDebugInterface _ => true
  | .EnableDebugLayer => true
  | .CreateDXGIFactory2 _ => true
  | .EnumAdapters1 _ _ => true
  | .GetDesc1 _ => true
  | .D3D12CreateDevice _ wantDevice _ => !wantDevice
  | _ => false

/-- The adapter a logged call creates the device from, when it is the device creation
of lines 318-321. -/
def Call.createdDeviceFrom? : Call → Option Nat
  | .D3D12CreateDevice a true _ => some a
  | _ => none

/-- Whether a logged call releases an object. -/
def Call.isRelease : Call → Bool
  | .Release _ => true
  | .CloseHandle _ => true
  | _ => false

/-- Whether, in a log, object `a` is released after object `b`. -/
def releasedAfter (calls : List Call) (a b : Obj) : Bool :=
  decide (calls.indexOf (Call.Release b) < calls.indexOf (Call.Release a))

/-- The objects created from the device (lines 331, 374, 401, 427, 557, 569, 616, 649). -/
def deviceChildren : List Obj :=
  [Obj.queue, Obj.rtvDescriptorHeap, Obj.commandAllocator, Obj.rootSignature, Obj.pipeline,
   Obj.cmdlist, Obj.vertexBuffer, Obj.fence]

/-- A complete run: startup, one paint notification, then the quit message. -/
def sampleRun : Option Outcome :=
  WinMain sampleWindow sampleEnv waitOk
    [Msg.WM_PAINT { draw := drawOk, wait := waitOk }, Msg.WM_QUIT] waitOk

/-- The calls of a list of startup blocks when every check passes. -/
def stepCalls : List Step → List Call
  | [] => []
  | st :: rest => st.calls ++ stepCalls rest

/-- The calls `wait_for_frame` makes after the signal: reads of and waits on the fence,
and the read of the back-buffer index. -/
def Call.isFenceQuery : Call → Bool
  | .GetCompletedValue _ => true
  | .SetEventOnCompletion _ _ => true
  | .WaitForSingleObject => true
  | .GetCurrentBackBufferIndex _ => true
  | _ => false

/-- The calls that `draw` and `wait_for_frame` make. -/
def Call.isFrameCall : Call → Bool
  | .CommandAllocator_Reset _ => true
  | .GraphicsCommandList_Reset _ => true
  | .Record _ => true
  | .GraphicsCommandList_Close _ => true
  | .ExecuteCommandLists => true
  | .Present1 _ => true
  | .Signal _ _ => true
  | c => c.isFenceQuery

/-- Whether a logged call is `ExecuteCommandLists`. -/
def Call.isExecute : Call → Bool
  | .ExecuteCommandLists => true
  | _ => false

/-- The value a logged call signalled on the queue, when the call is a signal that
succeeded. -/
def Call.signalled? : Call → Option Nat
  | .Signal v hr => if SUCCEEDED hr then some v else none
  | _ => none

/-- The values signalled successfully on the queue, in order. -/
def signalledValues (calls : List Call) : List Nat := calls.filterMap Call.signalled?

/-- The last value signalled successfully on the queue, with the initial value 0 of the
fence standing in before any signal. -/
def lastSignalled (calls : List Call) : Nat := (signalledValues calls).getLast?.getD 0

/-- The calls made after the most recent `ExecuteCommandLists` (all calls when there has
been none). -/
def afterLastExecute : List Call → List Call
  | [] => []
  | c :: cs =>
    if cs.any Call.isExecute then afterLastExecute cs
    else if c.isExecute then cs
    else c :: cs

/-- The GPU executes `k` more queue items. -/
def gpuAdvance (k : Nat) (s : State) : State :=
  { s with completed := (gpuRun k s.completed s.queue).1, queue := (gpuRun k s.completed s.queue).2 }

/-- The condition under which the allocator may be reset in state `s`: no command list
has been submitted yet, or a signal made after the most recent `ExecuteCommandLists`
succeeded with a value the fence has completed. -/
def resetIsSafe (s : State) : Bool :=
  !s.calls.any Call.isExecute ||
    (afterLastExecute s.calls).any (fun c =>
      match c.signalled? with
      | some v => decide (v ≤ s.completed)
      | none => false)

/-- The states in which the program can be between two calls, from the creation of the
fence on: the state startup leaves, and every state reached from it by calls of `draw`
and of `wait_for_frame` that return. -/
inductive Reachable (r : Handles) (ws : windowsize) : State → Prop
  | fenceCreated (env : StartupEnv) (s : State) :
      startup ws env = StartupResult.ready r s → Reachable r ws s
  | afterDraw (env : DrawEnv) (s : State) :
      Reachable r ws s → Reachable r ws (draw r ws env s)
  | afterWait (env : WaitEnv) (s s' : State) :
      Reachable r ws s → wait_for_frame env s = some s' → Reachable r ws s'

/-- An environment in which the signal of `wait_for_frame` fails. -/
def waitSignalFails : WaitEnv :=
  { signal := E_FAIL, gpuSteps := 0, setEvent := S_OK, backBufferIndex := 1 }

/-- The calls that startup makes. -/
def Call.isStartupCall : Call → Bool
  | .D3D12CreateDevice _ _ _ => true
  | .CreateCommandQueue _ => true
  | .CreateSwapChainForHwnd _ => true
  | .MakeWindowAssociation => true
  | .GetCurrentBackBufferIndex _ => true
  | .CreateDescriptorHeap _ => true
  | .GetBuffer _ _ => true
  | .CreateRenderTargetView _ _ => true
  | .CreateCommandAllocator _ => true
  | .SerializeVersionedRootSignature _ => true
  | .CreateRootSignature _ => true
  | .D3DCompile _ _ => true
  | .CreateGraphicsPipelineState _ => true
  | .CreateCommandList _ => true
  | .GraphicsCommandList_Close _ => true
  | .CreateCommittedResource _ => true
  | .Map _ => true
  | .memcpy _ => true
  | .Unmap => true
  | .CreateFence _ _ => true
  | .CreateEvent _ => true
  | c => c.beforeDevice

/-- The sample startup followed by the first call of `wait_for_frame` (line 668). -/
def sampleStart : Option (Handles × State) :=
  match startup sampleWindow sampleEnv with
  | .ready r s => (wait_for_frame waitOk s).map (fun s' => (r, s'))
  | .failed _ _ => none

/-- The sample startup followed by a sequence of paint notifications. -/
def sampleFrames (frames : List PaintEnv) : Option State :=
  sampleStart.bind (fun p => paints p.1 sampleWindow frames p.2)

/-- A frame in which every call succeeds. -/
def frameOk : PaintEnv := { draw := drawOk, wait := waitOk }

/-- A frame in which the signal of `wait_for_frame` fails and every other call succeeds. -/
def frameSignalFails : PaintEnv := { draw := drawOk, wait := waitSignalFails }

/-- The state the sample startup leaves, before the first call of `wait_for_frame`. -/
def sampleReady : State :=
  match startup sampleWindow sampleEnv with
  | .ready _ s => s
  | .failed _ _ => sampleState

/-- The counter is ahead of the fence and of every signal still queued: no value that
the program has signalled reaches the next value it will signal.  This holds as long
as the counter has not wrapped around. -/
def CounterAhead (s : State) : Prop :=
  s.completed < s.fenceValue ∧ ∀ v, QueueItem.signal v ∈ s.queue → v < s.fenceValue

/-- A startup environment whose only adapter is a software adapter. -/
def softwareOnlyEnv : StartupEnv :=
  { sampleEnv with adapters := [{ ptr := 11, Flags := 2, probe := S_OK }] }

/-- The resource whose view a logged call writes at descriptor `handle`, when the call
is a `CreateRenderTargetView` at that handle. -/
def Call.view? (handle : Nat) : Call → Option Nat
  | .CreateRenderTargetView resource h => if h = handle then some resource else none
  | _ => none

/-- The content of the RTV heap at descriptor `handle` after the logged calls: the
resource of the last view created there, if any. -/
def viewAt (calls : List Call) (handle : Nat) : Option Nat :=
  (calls.filterMap (Call.view? handle)).getLast?

/-- The render-target handle a logged call binds, when the call records
`OMSetRenderTargets`. -/
def Call.boundTarget? : Call → Option Nat
  | .Record (.OMSetRenderTargets _ rtv) => some rtv
  | _ => none

/-- The DXGI formats the program names. -/
inductive DXGI_FORMAT
  | UNKNOWN
  | R8G8B8A8_UNORM
  | R32G32B32_FLOAT
  | R32G32B32A32_FLOAT
  deriving DecidableEq, Repr

/-- Size in bytes of one element of a format, from the format's name: the number of
components times the bytes per component. -/
def DXGI_FORMAT.byteSize : DXGI_FORMAT → Nat
  | .UNKNOWN => 0
  | .R8G8B8A8_UNORM => 4 * 1
  | .R32G32B32_FLOAT => 3 * 4
  | .R32G32B32A32_FLOAT => 4 * 4

/-- The semantic names of the input layout. -/
inductive Semantic
  | POSITION
  | COLOR
  deriving DecidableEq, Repr

/-- An element of the input layout (lines 479-491).  Both elements are per-vertex data
of input slot 0; a field the initialiser does not name is zero. -/
structure D3D12_INPUT_ELEMENT_DESC where
  SemanticName : Semantic
  Format : DXGI_FORMAT
  AlignedByteOffset : Nat
  deriving DecidableEq, Repr

/-- Lines 479-491: the input layout of the pipeline. -/
def vertexFormat : List D3D12_INPUT_ELEMENT_DESC :=
  [ { SemanticName := Semantic.POSITION
      Format := DXGI_FORMAT.R32G32B32_FLOAT
      AlignedByteOffset := 0 },
    { SemanticName := Semantic.COLOR
      Format := DXGI_FORMAT.R32G32B32A32_FLOAT
      AlignedByteOffset := sizeof_float * 3 } ]

/-- The bytes an element of the layout occupies within a vertex: from its offset up to,
and not including, its offset plus the size of its format. -/
def D3D12_INPUT_ELEMENT_DESC.endOffset (e : D3D12_INPUT_ELEMENT_DESC) : Nat :=
  e.AlignedByteOffset + e.Format.byteSize

/-- The floats a buffer of floats holds from byte `byteOffset` on, `n` of them. -/
def floatsAt (data : List ℚ) (byteOffset n : Nat) : List ℚ :=
  (data.drop (byteOffset / sizeof_float)).take n

/-- What the input assembler reads for element `e` of vertex `k` from a buffer with the
given stride. -/
def elementOf (data : List ℚ) (stride : Nat) (e : D3D12_INPUT_ELEMENT_DESC) (k : Nat) :
    List ℚ :=
  floatsAt data (k * stride + e.AlignedByteOffset) (e.Format.byteSize / sizeof_float)

/-- The position of vertex `k`: element 0 of the layout, at the stride of line 642. -/
def vertexPosition (data : List ℚ) (k : Nat) : List ℚ :=
  match vertexFormat with
  | e :: _ => elementOf data (sizeof_float * (3 + 4)) e k
  | [] => []

/-- The colour of vertex `k`: element 1 of the layout, at the stride of line 642. -/
def vertexColor (data : List ℚ) (k : Nat) : List ℚ :=
  match vertexFormat with
  | _ :: e :: _ => elementOf data (sizeof_float * (3 + 4)) e k
  | _ => []

/-- A position in normalised device coordinates mapped to pixel space: x scaled by half
the width, y by half the height. -/
def toPixel (ws : windowsize) (p : List ℚ) : ℚ × ℚ :=
  (p.getD 0 0 * ((ws.width : ℚ) / 2), p.getD 1 0 * ((ws.height : ℚ) / 2))

/-- Squared distance of two points of the plane. -/
def sqDist (p q : ℚ × ℚ) : ℚ := (p.1 - q.1) ^ 2 + (p.2 - q.2) ^ 2

/-- The squared lengths, in pixel space, of the sides of the triangle a vertex buffer
holds: vertex 0 to 1, 1 to 2, 2 to 0. -/
def sideSquares (ws : windowsize) (data : List ℚ) : List ℚ :=
  [ sqDist (toPixel ws (vertexPosition data 0)) (toPixel ws (vertexPosition data 1)),
    sqDist (toPixel ws (vertexPosition data 1)) (toPixel ws (vertexPosition data 2)),
    sqDist (toPixel ws (vertexPosition data 2)) (toPixel ws (vertexPosition data 0)) ]

/-- A window of twice the sample size: the same aspect ratio. -/
def doubleWindow : windowsize := { width := 2560, height := 1440 }

/-- A window 16777217 wide and 1 high. -/
def wideWindow : windowsize := { width := 16777217, height := 1 }

/-- A window 50331651 wide and 3 high, of the same aspect ratio as `wideWindow`. -/
def tripleWindow : windowsize := { width := 50331651, height := 3 }

/-- The number of signals that have succeeded since startup: that of the first call of
`wait_for_frame`, if it succeeded, and those of the frames. -/
def successfulSignals (first : WaitEnv) (frames : List PaintEnv) : Nat :=
  (if SUCCEEDED first.signal then 1 else 0)
    + frames.countP (fun e => SUCCEEDED e.wait.signal)

/-- A square window, 720 x 720: its aspect is exactly 1. -/
def squareWindow : windowsize := { width := 720, height := 720 }

/-! ## Theorems -/

theorem le_gpuRun (n c : Nat) (q : List QueueItem) : c ≤ (gpuRun n c q).1 := by
  induction n generalizing c q with
  | zero => simp [gpuRun]
  | succ n ih =>
    cases q with
    | nil => simp [gpuRun]
    | cons item rest =>
      simp only [gpuRun]
      refine le_trans ?_ (ih _ _)
      cases item <;> simp [gpuStep]

theorem waitEvent_reached (v : Nat) (q : List QueueItem) (c : Nat) (g : Nat × List QueueItem)
    (h : waitEvent v c q = some g) : v ≤ g.1 := by
  induction q generalizing c with
  | nil =>
    simp only [waitEvent] at h
    split at h
    · cases h; assumption
    · cases h
  | cons item rest ih =>
    simp only [waitEvent] at h
    split at h
    · cases h; assumption
    · exact ih _ h

/-- C1: when a call of wait_for_frame returns, every value the call signalled
successfully on the queue is at most the completed value of the fence at return. -/
theorem wait_for_frame_no_premature_return (env : WaitEnv) (s s' : State)
    (hret : wait_for_frame env s = some s') (v : Nat) (hr : HRESULT)
    (hcall : Call.Signal v hr ∈ newCalls s s') (hok : SUCCEEDED hr = true) :
    v ≤ s'.completed := by
  unfold wait_for_frame at hret
  simp only [] at hret
  split at hret
  · cases hret
    simp [newCalls] at hcall
    rename_i hfail
    rw [← hcall.2] at hfail
    simp [hok] at hfail
  · split at hret
    · split at hret
      · split at hret
        · cases hret
        · rename_i g' hw
          cases hret
          simp [newCalls] at hcall
          have := waitEvent_reached _ _ _ _ hw
          rw [hcall.1]
          exact this
      · cases hret
    · rename_i hge
      cases hret
      simp [newCalls] at hcall
      rw [hcall.1]
      simpa using hge

theorem wait_for_frame_no_premature_return_witness :
    wait_for_frame waitOk sampleState
        = some { fenceValue := 3, frameIndex := 1, completed := 2, queue := [],
                 calls := [Call.Signal 2 S_OK, Call.GetCompletedValue 1,
                           Call.SetEventOnCompletion 2 S_OK, Call.WaitForSingleObject,
                           Call.GetCurrentBackBufferIndex 1] }
      ∧ 2 ≤ ((wait_for_frame waitOk sampleState).getD sampleState).completed :=
  ⟨by decide,
   wait_for_frame_no_premature_return waitOk sampleState
     ((wait_for_frame waitOk sampleState).getD sampleState)
     (by decide) 2 S_OK (by decide) (by decide)⟩

theorem gpuRun_reaches (v n c : Nat) (q : List QueueItem) (h : v ≤ c ∨ QueueItem.signal v ∈ q) :
    v ≤ (gpuRun n c q).1 ∨ QueueItem.signal v ∈ (gpuRun n c q).2 := by
  induction n generalizing c q with
  | zero => simpa [gpuRun] using h
  | succ n ih =>
    cases q with
    | nil => simpa [gpuRun] using h
    | cons item rest =>
      simp only [gpuRun]
      apply ih
      rcases h with h | h
      · left
        cases item <;> simp [gpuStep, h]
      · rcases List.mem_cons.mp h with h | h
        · left
          subst h
          simp [gpuStep]
        · right
          exact h

theorem waitEvent_returns (v : Nat) (q : List QueueItem) (c : Nat)
    (h : v ≤ c ∨ QueueItem.signal v ∈ q) : (waitEvent v c q).isSome = true := by
  induction q generalizing c with
  | nil =>
    have hc : v ≤ c := by simpa using h
    simp [waitEvent, hc]
  | cons item rest ih =>
    simp only [waitEvent]
    split
    · rfl
    · rename_i hlt
      apply ih
      rcases h with h | h
      · exact absurd h hlt
      · rcases List.mem_cons.mp h with h | h
        · left
          subst h
          simp [gpuStep]
        · right
          exact h

/-- The wait of wait_for_frame ends: when the signal fails, or when the event
registration succeeds, the call returns. -/
theorem wait_for_frame_returns (env : WaitEnv) (s : State)
    (h : SUCCEEDED env.signal = false ∨ SUCCEEDED env.setEvent = true) :
    (wait_for_frame env s).isSome = true := by
  unfold wait_for_frame
  simp only []
  split
  · rfl
  · rename_i hs
    have hset : SUCCEEDED env.setEvent = true := by
      rcases h with h | h
      · simp [h] at hs
      · exact h
    split
    · have hw := waitEvent_returns s.fenceValue
        (gpuRun env.gpuSteps s.completed (s.queue ++ [QueueItem.signal s.fenceValue])).2
        (gpuRun env.gpuSteps s.completed (s.queue ++ [QueueItem.signal s.fenceValue])).1
        (gpuRun_reaches _ _ _ _ (Or.inr (by simp)))
      split
      · rename_i hnone
        simp [hnone] at hw
      · rfl
    · rfl

theorem newCalls_append (s s' : State) (l : List Call) (h : s'.calls = s.calls ++ l) :
    newCalls s s' = l := by
  simp [newCalls, h]

theorem draw_calls (r : Handles) (ws : windowsize) (env : DrawEnv) (s : State) :
    (draw r ws env s).calls = s.calls ++
      (if !SUCCEEDED env.allocatorReset then [Call.CommandAllocator_Reset env.allocatorReset]
       else if !SUCCEEDED env.cmdlistReset then
         [Call.CommandAllocator_Reset env.allocatorReset,
          Call.GraphicsCommandList_Reset env.cmdlistReset]
       else
         [Call.CommandAllocator_Reset env.allocatorReset,
          Call.GraphicsCommandList_Reset env.cmdlistReset]
           ++ (recordedCommands r s.frameIndex ws).map Call.Record
           ++ [Call.GraphicsCommandList_Close env.close, Call.ExecuteCommandLists,
               Call.Present1 env.present]) := by
  unfold draw
  simp only []
  split
  · rfl
  · split
    · simp
    · simp

/-- C3, the part the code keeps: a failed reset of the allocator or of the command list
ends draw at once, with nothing submitted and nothing presented. -/
theorem draw_reset_failure_aborts (r : Handles) (ws : windowsize) (env : DrawEnv) (s : State)
    (h : SUCCEEDED env.allocatorReset = false ∨ SUCCEEDED env.cmdlistReset = false) :
    (newCalls s (draw r ws env s)).filter Call.isSubmission = []
      ∧ (draw r ws env s).queue = s.queue := by
  constructor
  · rw [newCalls_append s _ _ (draw_calls r ws env s)]
    by_cases h1 : SUCCEEDED env.allocatorReset = true
    · have h2 : SUCCEEDED env.cmdlistReset = false := by
        rcases h with h | h
        · simp [h] at h1
        · exact h
      simp [h1, h2, Call.isSubmission]
    · simp [h1, Call.isSubmission]
  · unfold draw
    by_cases h1 : SUCCEEDED env.allocatorReset = true
    · have h2 : SUCCEEDED env.cmdlistReset = false := by
        rcases h with h | h
        · simp [h] at h1
        · exact h
      simp [h1, h2]
    · simp [h1]

theorem draw_reset_failure_aborts_witness :
    (SUCCEEDED E_FAIL = false ∨ SUCCEEDED S_OK = false)
      ∧ (newCalls sampleState
            (draw sampleHandles sampleWindow { drawOk with allocatorReset := E_FAIL }
              sampleState)).filter Call.isSubmission = [] :=
  ⟨by decide,
   (draw_reset_failure_aborts sampleHandles sampleWindow { drawOk with allocatorReset := E_FAIL }
      sampleState (by decide)).1⟩

/-- C3, where the code departs from it: whatever status the close of the command list
returns, draw goes on to ExecuteCommandLists and Present1. -/
theorem draw_close_status_ignored (r : Handles) (ws : windowsize) (env : DrawEnv) (s : State)
    (h1 : SUCCEEDED env.allocatorReset = true) (h2 : SUCCEEDED env.cmdlistReset = true) :
    (newCalls s (draw r ws env s)).filter Call.isSubmission
        = [Call.ExecuteCommandLists, Call.Present1 env.present]
      ∧ (draw r ws env s).queue = s.queue ++ [QueueItem.exec] := by
  constructor
  · rw [newCalls_append s _ _ (draw_calls r ws env s)]
    simp [h1, h2, Call.isSubmission, recordedCommands]
  · unfold draw
    simp [h1, h2]

/-- C3 at the failing input: both resets succeed and the close of the command list
fails with E_FAIL; the frame is submitted and presented all the same. -/
theorem draw_close_failure_still_submits :
    SUCCEEDED drawCloseFails.close = false
      ∧ Call.GraphicsCommandList_Close E_FAIL
          ∈ newCalls sampleState (draw sampleHandles sampleWindow drawCloseFails sampleState)
      ∧ (newCalls sampleState
            (draw sampleHandles sampleWindow drawCloseFails sampleState)).filter Call.isSubmission
          = [Call.ExecuteCommandLists, Call.Present1 S_OK]
      ∧ (draw sampleHandles sampleWindow drawCloseFails sampleState).queue = [QueueItem.exec] := by
  refine ⟨by decide, ?_, ?_, ?_⟩
  · rw [newCalls_append _ _ _ (draw_calls _ _ _ _)]
    simp [drawCloseFails, SUCCEEDED, S_OK]
  · exact (draw_close_status_ignored _ _ _ _ (by decide) (by decide)).1
  · exact (draw_close_status_ignored _ _ _ _ (by decide) (by decide)).2

/-- C9: when the allocator reset and the command-list reset succeed, draw makes exactly
these calls, in this order: the two resets, then root signature, viewport, scissor
rectangle, barrier PRESENT to RENDER_TARGET on the current back buffer, that back
buffer's RTV as the one render target, clear to (0.05, 0.05, 0.05, 1.0), triangle-list
topology, vertex buffer, DrawInstanced(3, 1, 0, 0), barrier RENDER_TARGET to PRESENT,
close, and then submission and present; exactly one draw command is recorded. -/
theorem draw_records_fixed_sequence (r : Handles) (ws : windowsize) (env : DrawEnv) (s : State)
    (h1 : SUCCEEDED env.allocatorReset = true) (h2 : SUCCEEDED env.cmdlistReset = true) :
    newCalls s (draw r ws env s) =
        [ Call.CommandAllocator_Reset env.allocatorReset,
          Call.GraphicsCommandList_Reset env.cmdlistReset,
          Call.Record Cmd.SetGraphicsRootSignature,
          Call.Record (Cmd.RSSetViewports 1
            { TopLeftX := 0, TopLeftY := 0, Width := ws.width, Height := ws.height,
              MinDepth := 0, MaxDepth := 0 }),
          Call.Record (Cmd.RSSetScissorRects 1
            { left := 0, top := 0, right := toLONG ws.width, bottom := toLONG ws.height }),
          Call.Record (Cmd.ResourceBarrier 1
            { pResource := r.targets s.frameIndex
              StateBefore := D3D12_RESOURCE_STATES.PRESENT
              StateAfter := D3D12_RESOURCE_STATES.RENDER_TARGET }),
          Call.Record (Cmd.OMSetRenderTargets 1
            (get_descriptor_handle_d3d12 r.heapStart r.rtvIncrement s.frameIndex)),
          Call.Record (Cmd.ClearRenderTargetView
            (get_descriptor_handle_d3d12 r.heapStart r.rtvIncrement s.frameIndex)
            [0.05, 0.05, 0.05, 1.0]),
          Call.Record (Cmd.IASetPrimitiveTopology D3D_PRIMITIVE_TOPOLOGY.TRIANGLELIST),
          Call.Record (Cmd.IASetVertexBuffers 0 1 r.vertexBufferView),
          Call.Record (Cmd.DrawInstanced 3 1 0 0),
          Call.Record (Cmd.ResourceBarrier 1
            { pResource := r.targets s.frameIndex
              StateBefore := D3D12_RESOURCE_STATES.RENDER_TARGET
              StateAfter := D3D12_RESOURCE_STATES.PRESENT }),
          Call.GraphicsCommandList_Close env.close,
          Call.ExecuteCommandLists,
          Call.Present1 env.present ]
      ∧ (newCalls s (draw r ws env s)).countP Call.isDrawCommand = 1 := by
  rw [newCalls_append s _ _ (draw_calls r ws env s)]
  simp only [h1, h2, recordedCommands]
  constructor
  · norm_num
  · simp [Call.isDrawCommand, List.countP_cons]

theorem draw_records_fixed_sequence_witness :
    SUCCEEDED drawOk.allocatorReset = true ∧ SUCCEEDED drawOk.cmdlistReset = true
      ∧ (newCalls sampleState
            (draw sampleHandles sampleWindow drawOk sampleState)).countP Call.isDrawCommand = 1 :=
  ⟨by decide, by decide,
   (draw_records_fixed_sequence sampleHandles sampleWindow drawOk sampleState
      (by decide) (by decide)).2⟩

/-- C8: in a draw call whose recording completes, with the current back buffer in the
PRESENT state at the start, the frame records two barriers, both on
targets[frameIndex]; applying them in order is valid and leaves that back buffer in
PRESENT and every other resource as it was. -/
theorem draw_barriers_round_trip (r : Handles) (ws : windowsize) (env : DrawEnv) (s : State)
    (st : Nat → D3D12_RESOURCE_STATES)
    (h1 : SUCCEEDED env.allocatorReset = true) (h2 : SUCCEEDED env.cmdlistReset = true)
    (_hidx : s.frameIndex < NUM_RENDERTARGETS)
    (hst : st (r.targets s.frameIndex) = D3D12_RESOURCE_STATES.PRESENT) :
    recordedBarriers s (draw r ws env s) =
        [ { pResource := r.targets s.frameIndex
            StateBefore := D3D12_RESOURCE_STATES.PRESENT
            StateAfter := D3D12_RESOURCE_STATES.RENDER_TARGET },
          { pResource := r.targets s.frameIndex
            StateBefore := D3D12_RESOURCE_STATES.RENDER_TARGET
            StateAfter := D3D12_RESOURCE_STATES.PRESENT } ]
      ∧ ∃ st', applyBarriers (recordedBarriers s (draw r ws env s)) st = some st'
          ∧ st' (r.targets s.frameIndex) = D3D12_RESOURCE_STATES.PRESENT
          ∧ ∀ x, x ≠ r.targets s.frameIndex → st' x = st x := by
  have hb : recordedBarriers s (draw r ws env s) =
        [ { pResource := r.targets s.frameIndex
            StateBefore := D3D12_RESOURCE_STATES.PRESENT
            StateAfter := D3D12_RESOURCE_STATES.RENDER_TARGET },
          { pResource := r.targets s.frameIndex
            StateBefore := D3D12_RESOURCE_STATES.RENDER_TARGET
            StateAfter := D3D12_RESOURCE_STATES.PRESENT } ] := by
    unfold recordedBarriers
    rw [newCalls_append s _ _ (draw_calls r ws env s)]
    simp [h1, h2, recordedCommands, Call.barrier?]
  refine ⟨hb, ?_⟩
  rw [hb]
  refine ⟨st, ?_, hst, fun _ _ => rfl⟩
  simp only [applyBarriers, applyBarrier, hst, if_true, Function.update_same]
  congr 1
  funext x
  by_cases hx : x = r.targets s.frameIndex
  · subst hx
    simp [hst]
  · simp [Function.update, hx]

theorem draw_barriers_round_trip_witness :
    sampleState.frameIndex < NUM_RENDERTARGETS
      ∧ allPresent (sampleHandles.targets sampleState.frameIndex) = D3D12_RESOURCE_STATES.PRESENT
      ∧ recordedBarriers sampleState (draw sampleHandles sampleWindow drawOk sampleState) =
        [ { pResource := 100
            StateBefore := D3D12_RESOURCE_STATES.PRESENT
            StateAfter := D3D12_RESOURCE_STATES.RENDER_TARGET },
          { pResource := 100
            StateBefore := D3D12_RESOURCE_STATES.RENDER_TARGET
            StateAfter := D3D12_RESOURCE_STATES.PRESENT } ] :=
  ⟨by decide, rfl,
   (draw_barriers_round_trip sampleHandles sampleWindow drawOk sampleState allPresent
      (by decide) (by decide) (by decide) rfl).1⟩

/-- C4 at the failing input: the factory cannot be created; WinMain returns 0. -/
theorem WinMain_factory_failure_exit_code :
    SUCCEEDED E_FAIL = false
      ∧ WinMain sampleWindow { sampleEnv with createFactory := E_FAIL } waitOk [Msg.WM_QUIT] waitOk
          = some { exitCode := 0,
                   calls := [Call.RegisterClassEx true, Call.CreateWindowEx true,
                             Call.CreateDXGIFactory2 E_FAIL] } := by
  constructor
  · decide
  · rfl

theorem runSteps_exitCode (steps : List Step) (c : List Call) (code : Int)
    (h : (runSteps steps c).1 = some code) :
    ∃ st ∈ steps, st.ok = false ∧ st.exitCode = code := by
  induction steps generalizing c with
  | nil => simp [runSteps] at h
  | cons st rest ih =>
    simp only [runSteps] at h
    by_cases hok : st.ok = true
    · simp only [hok, if_true] at h
      obtain ⟨st', hmem, h'⟩ := ih _ h
      exact ⟨st', List.mem_cons_of_mem _ hmem, h'⟩
    · simp only [hok] at h
      refine ⟨st, List.mem_cons_self _ _, by simpa using hok, ?_⟩
      simpa using h

theorem runSteps_calls (steps : List Step) (c : List Call) :
    ∃ l, (runSteps steps c).2 = c ++ l ∧ ∀ x ∈ l, ∃ st ∈ steps, x ∈ st.calls := by
  induction steps generalizing c with
  | nil => exact ⟨[], by simp [runSteps], by simp⟩
  | cons st rest ih =>
    simp only [runSteps]
    by_cases hok : st.ok = true
    · simp only [hok, if_true]
      obtain ⟨l, hl, hmem⟩ := ih (c ++ st.calls)
      refine ⟨st.calls ++ l, by simp [hl], ?_⟩
      intro x hx
      rcases List.mem_append.mp hx with hx | hx
      · exact ⟨st, List.mem_cons_self _ _, hx⟩
      · obtain ⟨st', hst', hx'⟩ := hmem x hx
        exact ⟨st', List.mem_cons_of_mem _ hst', hx'⟩
    · simp only [hok]
      exact ⟨st.calls, rfl, fun x hx => ⟨st, List.mem_cons_self _ _, hx⟩⟩

theorem preDeviceSteps_exitCode (env : StartupEnv) (st : Step) (hst : st ∈ preDeviceSteps env)
    (hreg : env.registerClass = true) (hwnd : env.createWindow = true) (hok : st.ok = false) :
    st.exitCode = 0 := by
  unfold preDeviceSteps at hst
  cases hd : env.buildDebug
  · simp only [hd, Bool.false_eq_true, if_false, List.append_assoc, List.cons_append,
      List.nil_append, List.mem_cons, List.mem_singleton, List.not_mem_nil, or_false] at hst
    rcases hst with h | h | h | h
    all_goals
      subst h
      first
        | rfl
        | simp_all
  · simp only [hd, if_true, List.append_assoc, List.cons_append, List.nil_append,
      List.mem_cons, List.mem_singleton, List.not_mem_nil, or_false] at hst
    rcases hst with h | h | h | h | h | h
    all_goals
      subst h
      first
        | rfl
        | simp_all

theorem deviceSteps_exitCode (env : StartupEnv) (a : Adapter) (st : Step)
    (hst : st ∈ deviceSteps env a) : st.exitCode = 0 := by
  unfold deviceSteps at hst
  simp only [List.mem_cons, List.mem_singleton, List.not_mem_nil, or_false] at hst
  rcases hst with h | h | h | h | h | h | h | h | h | h | h | h | h | h | h | h | h | h | h <;>
    subst h <;> rfl

/-- C4 in general: once the window exists, every failure of startup makes WinMain
return the value of false, which is 0. -/
theorem startup_failure_returns_false (ws : windowsize) (env : StartupEnv) (code : Int)
    (calls : List Call) (hreg : env.registerClass = true) (hwnd : env.createWindow = true)
    (h : startup ws env = StartupResult.failed code calls) : code = 0 := by
  unfold startup at h
  split at h
  · rename_i exitCode c hrun
    injection h with h1 h2
    subst h1
    obtain ⟨st, hmem, hok, hcode⟩ := runSteps_exitCode _ _ exitCode (by rw [hrun])
    rw [← hcode]
    exact preDeviceSteps_exitCode env st hmem hreg hwnd hok
  · split at h
    · injection h with h1 h2
      rw [← h1]
      rfl
    · split at h
      · rename_i exitCode c hrun
        injection h with h1 h2
        subst h1
        obtain ⟨st, hmem, _, hcode⟩ := runSteps_exitCode _ _ exitCode (by rw [hrun])
        rw [← hcode]
        exact deviceSteps_exitCode env _ st hmem
      · cases h

theorem runSteps_all_ok (steps : List Step) (c : List Call) (h : ∀ st ∈ steps, st.ok = true) :
    runSteps steps c = (none, c ++ stepCalls steps) := by
  induction steps generalizing c with
  | nil => simp [runSteps, stepCalls]
  | cons st rest ih =>
    have hst : st.ok = true := h st (List.mem_cons_self _ _)
    simp only [runSteps, hst, if_true, stepCalls]
    rw [ih _ (fun st' hst' => h st' (List.mem_cons_of_mem _ hst'))]
    simp

theorem runSteps_head_calls (st : Step) (rest : List Step) (c : List Call) (x : Call)
    (hx : x ∈ st.calls) : x ∈ (runSteps (st :: rest) c).2 := by
  simp only [runSteps]
  by_cases hok : st.ok = true
  · simp only [hok, if_true]
    obtain ⟨l, hl, _⟩ := runSteps_calls rest (c ++ st.calls)
    rw [hl]
    simp [hx]
  · simp [hok, hx]

theorem selectAdapter_fst (l : List Adapter) (i : Nat) :
    (selectAdapter i l).1 = l.find? Adapter.qualifies := by
  induction l generalizing i with
  | nil => simp [selectAdapter]
  | cons a rest ih =>
    simp only [selectAdapter, List.find?_cons, Adapter.qualifies]
    by_cases hs : a.isSoftware = true
    · simp [hs, ih]
    · by_cases hp : SUCCEEDED a.probe = true
      · simp [hs, hp]
      · simp [hs, hp, ih]

theorem selectAdapter_beforeDevice (l : List Adapter) (i : Nat) :
    (selectAdapter i l).2.all Call.beforeDevice = true := by
  induction l generalizing i with
  | nil => rfl
  | cons a rest ih =>
    simp only [selectAdapter]
    cases hs : a.isSoftware <;> cases hp : SUCCEEDED a.probe <;>
      simp [Call.beforeDevice, ih]

theorem selectAdapter_none_last (l : List Adapter) (i : Nat)
    (h : (selectAdapter i l).1 = none) :
    (selectAdapter i l).2.getLast? = some (Call.EnumAdapters1 (i + l.length) none) := by
  induction l generalizing i with
  | nil => simp [selectAdapter]
  | cons a rest ih =>
    simp only [selectAdapter] at h ⊢
    have hlen : i + 1 + rest.length = i + (a :: rest).length := by
      simp only [List.length_cons]
      omega
    cases hs : a.isSoftware <;> cases hp : SUCCEEDED a.probe <;>
      simp only [hs, hp, if_true, if_false, Bool.false_eq_true] at h ⊢
    · rw [List.getLast?_append, ih (i + 1) h, hlen]
      rfl
    · cases h
    · rw [List.getLast?_append, ih (i + 1) h, hlen]
      rfl
    · rw [List.getLast?_append, ih (i + 1) h, hlen]
      rfl

theorem rtvLoop_calls (env : StartupEnv) (n i handle : Nat) :
    ∀ x ∈ (rtvLoop env n i handle).2, x.createdDeviceFrom? = none := by
  induction n generalizing i handle with
  | zero => simp [rtvLoop]
  | succ n ih =>
    simp only [rtvLoop]
    cases hb : SUCCEEDED (env.getBuffer i)
    · simp [Call.createdDeviceFrom?]
    · simp only [Bool.not_true, Bool.false_eq_true, if_false, List.mem_append]
      intro x hx
      rcases hx with hx | hx
      · simp only [List.mem_cons, List.mem_singleton, List.not_mem_nil, or_false] at hx
        rcases hx with hx | hx
        · rw [hx]; rfl
        · rw [hx]; rfl
      · exact ih _ _ x hx

theorem preDeviceSteps_all_ok (env : StartupEnv)
    (hreg : env.registerClass = true) (hwnd : env.createWindow = true)
    (hdbg : env.buildDebug = true → SUCCEEDED env.getDebugInterface = true)
    (hfac : SUCCEEDED env.createFactory = true) :
    ∀ st ∈ preDeviceSteps env, st.ok = true := by
  intro st hst
  unfold preDeviceSteps at hst
  cases hd : env.buildDebug
  · simp only [hd, Bool.false_eq_true, if_false, List.append_assoc, List.cons_append,
      List.nil_append, List.mem_cons, List.mem_singleton, List.not_mem_nil, or_false] at hst
    rcases hst with h | h | h | h
    all_goals
      subst h
      first
        | rfl
        | assumption
  · simp only [hd, if_true, List.append_assoc, List.cons_append, List.nil_append,
      List.mem_cons, List.mem_singleton, List.not_mem_nil, or_false] at hst
    rcases hst with h | h | h | h | h | h
    all_goals
      subst h
      first
        | rfl
        | assumption
        | exact hdbg hd

theorem preDeviceSteps_calls (env : StartupEnv) :
    (stepCalls (preDeviceSteps env)).all Call.beforeDevice = true
      ∧ (stepCalls (preDeviceSteps env)).getLast? = (selectAdapter 0 env.adapters).2.getLast? := by
  have hne : (selectAdapter 0 env.adapters).2 ≠ [] := by
    cases h : env.adapters with
    | nil => simp [selectAdapter]
    | cons a rest =>
      simp only [selectAdapter]
      cases a.isSoftware <;> cases SUCCEEDED a.probe <;> simp
  have hsel := selectAdapter_beforeDevice env.adapters 0
  unfold preDeviceSteps
  cases hd : env.buildDebug
  · simp only [Bool.false_eq_true, if_false, List.append_nil, List.cons_append, List.nil_append,
      stepCalls, List.all_append, List.all_cons, List.all_nil, Call.beforeDevice, hsel,
      Bool.and_true, true_and]
    show ([Call.RegisterClassEx env.registerClass, Call.CreateWindowEx env.createWindow,
           Call.CreateDXGIFactory2 env.createFactory] ++ (selectAdapter 0 env.adapters).2).getLast?
        = (selectAdapter 0 env.adapters).2.getLast?
    rw [List.getLast?_append_of_ne_nil _ hne]
  · simp only [if_true, List.append_nil, List.cons_append, List.nil_append,
      stepCalls, List.all_append, List.all_cons, List.all_nil, Call.beforeDevice, hsel,
      Bool.and_true, true_and]
    show ([Call.RegisterClassEx env.registerClass, Call.CreateWindowEx env.createWindow,
           Call.D3D12GetDebugInterface env.getDebugInterface, Call.EnableDebugLayer,
           Call.CreateDXGIFactory2 env.createFactory] ++ (selectAdapter 0 env.adapters).2).getLast?
        = (selectAdapter 0 env.adapters).2.getLast?
    rw [List.getLast?_append_of_ne_nil _ hne]

theorem deviceSteps_device_call (env : StartupEnv) (a : Adapter) (st : Step)
    (hst : st ∈ deviceSteps env a) (x : Call) (hx : x ∈ st.calls) (b : Nat)
    (hb : x.createdDeviceFrom? = some b) : b = a.ptr := by
  unfold deviceSteps at hst
  simp only [List.mem_cons, List.mem_singleton, List.not_mem_nil, or_false] at hst
  rcases hst with h | h | h | h | h | h | h | h | h | h | h | h | h | h | h | h | h | h | h
  all_goals
    subst h
    first
      | exact absurd hb (by rw [rtvLoop_calls _ _ _ _ x hx]; simp)
      | (simp only [List.mem_cons, List.mem_singleton, List.not_mem_nil, or_false] at hx
         rcases hx with hx | hx
         all_goals
           subst hx
           simp [Call.createdDeviceFrom?] at hb)
      | (simp only [List.mem_cons, List.mem_singleton, List.not_mem_nil, or_false] at hx
         subst hx
         simp only [Call.createdDeviceFrom?] at hb
         first
           | exact (Option.some.inj hb).symm
           | cases hb)

theorem startup_no_adapter (ws : windowsize) (env : StartupEnv)
    (hreg : env.registerClass = true) (hwnd : env.createWindow = true)
    (hdbg : env.buildDebug = true → SUCCEEDED env.getDebugInterface = true)
    (hfac : SUCCEEDED env.createFactory = true)
    (hsel : (selectAdapter 0 env.adapters).1 = none) :
    startup ws env = StartupResult.failed returnFalse (stepCalls (preDeviceSteps env)) := by
  unfold startup
  rw [runSteps_all_ok _ _ (preDeviceSteps_all_ok env hreg hwnd hdbg hfac)]
  simp only [hsel, List.nil_append]

theorem startup_calls_adapter (ws : windowsize) (env : StartupEnv) (a : Adapter)
    (hreg : env.registerClass = true) (hwnd : env.createWindow = true)
    (hdbg : env.buildDebug = true → SUCCEEDED env.getDebugInterface = true)
    (hfac : SUCCEEDED env.createFactory = true)
    (hsel : (selectAdapter 0 env.adapters).1 = some a) :
    (startup ws env).calls
      = (runSteps (deviceSteps env a) (stepCalls (preDeviceSteps env))).2 := by
  unfold startup
  rw [runSteps_all_ok _ _ (preDeviceSteps_all_ok env hreg hwnd hdbg hfac)]
  simp only [hsel, List.nil_append]
  rcases hrun : runSteps (deviceSteps env a) (stepCalls (preDeviceSteps env)) with ⟨code, c⟩
  cases code <;> rfl

/-- C5: the adapter left selected by the enumeration loop is the first adapter, in
enumeration order, that has no software flag and passes the device probe; the device
is created from that adapter and from no other; and when no adapter qualifies, WinMain
returns at the adapter check, its last call being the enumeration that found no more
adapters, with no device created and no call of draw or wait_for_frame made. -/
theorem adapter_selection (ws : windowsize) (env : StartupEnv) (first last : WaitEnv)
    (msgs : List Msg)
    (hreg : env.registerClass = true) (hwnd : env.createWindow = true)
    (hdbg : env.buildDebug = true → SUCCEEDED env.getDebugInterface = true)
    (hfac : SUCCEEDED env.createFactory = true) :
    (selectAdapter 0 env.adapters).1 = env.adapters.find? Adapter.qualifies
      ∧ (∀ a, env.adapters.find? Adapter.qualifies = some a →
          a.isSoftware = false ∧ SUCCEEDED a.probe = true
          ∧ (∃ pre post, env.adapters = pre ++ a :: post ∧ ∀ x ∈ pre, x.qualifies = false)
          ∧ Call.D3D12CreateDevice a.ptr true env.createDevice ∈ (startup ws env).calls
          ∧ ∀ b hr, Call.D3D12CreateDevice b true hr ∈ (startup ws env).calls → b = a.ptr)
      ∧ (env.adapters.find? Adapter.qualifies = none →
          ∃ calls, startup ws env = StartupResult.failed returnFalse calls
            ∧ WinMain ws env first msgs last = some { exitCode := returnFalse, calls := calls }
            ∧ calls.getLast? = some (Call.EnumAdapters1 env.adapters.length none)
            ∧ calls.all Call.beforeDevice = true) := by
  have hfst := selectAdapter_fst env.adapters 0
  refine ⟨hfst, ?_, ?_⟩
  · intro a ha
    have hsel : (selectAdapter 0 env.adapters).1 = some a := by rw [hfst, ha]
    have hcalls := startup_calls_adapter ws env a hreg hwnd hdbg hfac hsel
    obtain ⟨hq, pre, post, hsplit, hpre⟩ := List.find?_eq_some.mp ha
    have hq' : a.isSoftware = false ∧ SUCCEEDED a.probe = true := by
      simpa [Adapter.qualifies] using hq
    refine ⟨hq'.1, hq'.2, ⟨pre, post, hsplit, ?_⟩, ?_, ?_⟩
    · intro x hx
      simpa using hpre x hx
    · rw [hcalls]
      exact runSteps_head_calls _ _ _ _ (List.mem_singleton.mpr rfl)
    · intro b hr hmem
      rw [hcalls] at hmem
      obtain ⟨l, hl, hfrom⟩ := runSteps_calls (deviceSteps env a) (stepCalls (preDeviceSteps env))
      rw [hl] at hmem
      rcases List.mem_append.mp hmem with hmem | hmem
      · have := List.all_eq_true.mp (preDeviceSteps_calls env).1 _ hmem
        simp [Call.beforeDevice] at this
      · obtain ⟨st, hst, hx⟩ := hfrom _ hmem
        exact deviceSteps_device_call env a st hst _ hx b rfl
  · intro hnone
    have hsel : (selectAdapter 0 env.adapters).1 = none := by rw [hfst, hnone]
    have hstart := startup_no_adapter ws env hreg hwnd hdbg hfac hsel
    refine ⟨_, hstart, ?_, ?_, (preDeviceSteps_calls env).1⟩
    · unfold WinMain
      rw [hstart]
    · rw [(preDeviceSteps_calls env).2]
      simpa using selectAdapter_none_last env.adapters 0 hsel

theorem adapter_selection_witness :
    (selectAdapter 0 sampleEnv.adapters).1 = some { ptr := 12, Flags := 0, probe := S_OK }
      ∧ Call.D3D12CreateDevice 12 true S_OK ∈ (startup sampleWindow sampleEnv).calls :=
  ⟨by decide,
   ((adapter_selection sampleWindow sampleEnv waitOk waitOk [] rfl rfl
      (fun h => absurd h (by decide)) (by decide)).2.1
        { ptr := 12, Flags := 0, probe := S_OK } (by decide)).2.2.2.1⟩

theorem wait_for_frame_spec (env : WaitEnv) (s s' : State)
    (h : wait_for_frame env s = some s') :
    ∃ l, s'.calls = s.calls ++ Call.Signal s.fenceValue env.signal :: l
      ∧ l.all Call.isFenceQuery = true
      ∧ (SUCCEEDED env.signal = true →
          s'.fenceValue = (s.fenceValue + 1) % UINT32_SIZE ∧ s.fenceValue ≤ s'.completed)
      ∧ (SUCCEEDED env.signal = false →
          s'.fenceValue = s.fenceValue ∧ s'.completed = s.completed ∧ s'.queue = s.queue
            ∧ s'.frameIndex = s.frameIndex ∧ l = []) := by
  unfold wait_for_frame at h
  simp only [] at h
  cases hs : SUCCEEDED env.signal
  · simp only [hs, Bool.not_false, if_true, Option.some.injEq] at h
    subst h
    exact ⟨[], by simp, rfl, by simp, by simp⟩
  · simp only [hs, Bool.not_true, Bool.false_eq_true, if_false] at h
    split at h
    · split at h
      · split at h
        · cases h
        · rename_i g' hw
          cases h
          refine ⟨_, by simp; rfl, by simp [Call.isFenceQuery], ?_, by simp⟩
          intro _
          exact ⟨rfl, waitEvent_reached _ _ _ _ hw⟩
      · cases h
    · rename_i hge
      cases h
      refine ⟨_, by simp; rfl, by simp [Call.isFenceQuery], ?_, by simp⟩
      intro _
      exact ⟨rfl, by simpa using hge⟩

theorem signalledValues_append (a b : List Call) :
    signalledValues (a ++ b) = signalledValues a ++ signalledValues b := by
  simp [signalledValues]

theorem signalledValues_fenceQueries (l : List Call) (h : l.all Call.isFenceQuery = true) :
    signalledValues l = [] := by
  induction l with
  | nil => rfl
  | cons c cs ih =>
    simp only [List.all_cons, Bool.and_eq_true] at h
    have hc : c.signalled? = none := by
      cases c <;> simp_all [Call.isFenceQuery, Call.signalled?]
    simp only [signalledValues, List.filterMap_cons, hc]
    exact ih h.2

theorem fenceQuery_isFrameCall (l : List Call) (h : l.all Call.isFenceQuery = true) :
    l.all Call.isFrameCall = true := by
  rw [List.all_eq_true] at h ⊢
  intro c hc
  have := h c hc
  cases c <;> simp_all [Call.isFenceQuery, Call.isFrameCall]

theorem draw_fields (r : Handles) (ws : windowsize) (env : DrawEnv) (s : State) :
    (draw r ws env s).fenceValue = s.fenceValue
      ∧ (draw r ws env s).frameIndex = s.frameIndex
      ∧ (draw r ws env s).completed = s.completed := by
  unfold draw
  simp only []
  split
  · exact ⟨rfl, rfl, rfl⟩
  · split
    · exact ⟨rfl, rfl, rfl⟩
    · exact ⟨rfl, rfl, rfl⟩

theorem draw_newCalls (r : Handles) (ws : windowsize) (env : DrawEnv) (s : State) :
    ∃ d, (draw r ws env s).calls = s.calls ++ d ∧ d.all Call.isFrameCall = true
      ∧ signalledValues d = [] := by
  refine ⟨_, draw_calls r ws env s, ?_, ?_⟩
  · cases SUCCEEDED env.allocatorReset <;> cases SUCCEEDED env.cmdlistReset <;>
      simp [Call.isFrameCall, recordedCommands]
  · cases SUCCEEDED env.allocatorReset <;> cases SUCCEEDED env.cmdlistReset <;>
      simp [signalledValues, Call.signalled?, recordedCommands]

/-- One paint notification: the log grows by frame calls only; the counter moves on by
one, modulo `2 ^ 32`, exactly when the signal succeeds, and the value signalled is
the value of the counter before the frame. -/
theorem paint_spec (r : Handles) (ws : windowsize) (e : PaintEnv) (s s' : State)
    (h : WindowProc r ws (Msg.WM_PAINT e) s = some s') :
    ∃ l, s'.calls = s.calls ++ l ∧ l.all Call.isFrameCall = true
      ∧ (SUCCEEDED e.wait.signal = true →
          s'.fenceValue = (s.fenceValue + 1) % UINT32_SIZE ∧ signalledValues l = [s.fenceValue])
      ∧ (SUCCEEDED e.wait.signal = false →
          s'.fenceValue = s.fenceValue ∧ signalledValues l = []) := by
  simp only [WindowProc] at h
  obtain ⟨l, hl, hq, hok, hfail⟩ := wait_for_frame_spec _ _ _ h
  obtain ⟨d, hd, hdf, hds⟩ := draw_newCalls r ws e.draw s
  have hfv := (draw_fields r ws e.draw s).1
  refine ⟨d ++ Call.Signal s.fenceValue e.wait.signal :: l, ?_, ?_, ?_, ?_⟩
  · rw [hl, hd, hfv]
    simp
  · simp [hdf, Call.isFrameCall, fenceQuery_isFrameCall l hq]
  · intro hs
    refine ⟨by rw [(hok hs).1, hfv], ?_⟩
    rw [signalledValues_append, hds]
    show signalledValues ([Call.Signal s.fenceValue e.wait.signal] ++ l) = _
    rw [signalledValues_append, signalledValues_fenceQueries l hq]
    simp [signalledValues, Call.signalled?, hs]
  · intro hs
    refine ⟨by rw [(hfail hs).1, hfv], ?_⟩
    rw [signalledValues_append, hds]
    show signalledValues ([Call.Signal s.fenceValue e.wait.signal] ++ l) = _
    rw [signalledValues_append, signalledValues_fenceQueries l hq]
    simp [signalledValues, Call.signalled?, hs]

theorem map_mod_range' (M a n : Nat) :
    (List.range' (a % M) n).map (· % M) = (List.range' a n).map (· % M) := by
  induction n generalizing a with
  | zero => rfl
  | succ n ih =>
    simp only [List.range'_succ, List.map_cons, Nat.mod_mod]
    congr 1
    rw [← ih (a % M + 1), ← ih (a + 1), Nat.mod_add_mod]

theorem paints_cons (r : Handles) (ws : windowsize) (e : PaintEnv) (es : List PaintEnv)
    (s s' : State) (h : paints r ws (e :: es) s = some s') :
    ∃ s1, WindowProc r ws (Msg.WM_PAINT e) s = some s1 ∧ paints r ws es s1 = some s' := by
  simp only [paints] at h
  split at h
  · cases h
  · rename_i s1 h1
    exact ⟨s1, h1, h⟩

/-- Over a sequence of paint notifications the log grows by frame calls only; the
counter advances, modulo `2 ^ 32`, by the number of frames whose signal succeeded;
and the values signalled are the consecutive values from the initial counter on. -/
theorem paints_counter (r : Handles) (ws : windowsize) (frames : List PaintEnv)
    (s0 s : State) (h : paints r ws frames s0 = some s) (h0 : s0.fenceValue < UINT32_SIZE) :
    ∃ l, s.calls = s0.calls ++ l ∧ l.all Call.isFrameCall = true
      ∧ s.fenceValue
          = (s0.fenceValue + frames.countP (fun e => SUCCEEDED e.wait.signal)) % UINT32_SIZE
      ∧ signalledValues l
          = (List.range' s0.fenceValue
              (frames.countP (fun e => SUCCEEDED e.wait.signal))).map (· % UINT32_SIZE) := by
  induction frames generalizing s0 with
  | nil =>
    simp only [paints, Option.some.injEq] at h
    subst h
    exact ⟨[], by simp, rfl, by simp [Nat.mod_eq_of_lt h0], by simp [signalledValues]⟩
  | cons e es ih =>
    obtain ⟨s1, h1, h2⟩ := paints_cons r ws e es s0 s h
    obtain ⟨l1, hl1, hf1, hok, hfail⟩ := paint_spec r ws e s0 s1 h1
    have hM : 0 < UINT32_SIZE := by decide
    cases hs : SUCCEEDED e.wait.signal
    · obtain ⟨hfv, hsig⟩ := hfail hs
      obtain ⟨l2, hl2, hf2, hfv2, hsig2⟩ := ih s1 h2 (by rw [hfv]; exact h0)
      refine ⟨l1 ++ l2, by rw [hl2, hl1]; simp, by simp [hf1, hf2], ?_, ?_⟩
      · rw [hfv2, hfv]
        simp [List.countP_cons, hs]
      · rw [signalledValues_append, hsig, hsig2, hfv]
        simp [List.countP_cons, hs]
    · obtain ⟨hfv, hsig⟩ := hok hs
      obtain ⟨l2, hl2, hf2, hfv2, hsig2⟩ :=
        ih s1 h2 (by rw [hfv]; exact Nat.mod_lt _ hM)
      refine ⟨l1 ++ l2, by rw [hl2, hl1]; simp, by simp [hf1, hf2], ?_, ?_⟩
      · rw [hfv2, hfv]
        simp only [List.countP_cons, hs, if_true]
        rw [Nat.mod_add_mod]
        congr 1
        omega
      · rw [signalledValues_append, hsig, hsig2, hfv]
        simp only [List.countP_cons, hs, if_true]
        rw [map_mod_range', List.range'_succ]
        simp [Nat.mod_eq_of_lt h0]

theorem mem_stepCalls (steps : List Step) (st : Step) (hst : st ∈ steps) (x : Call)
    (hx : x ∈ st.calls) : x ∈ stepCalls steps := by
  induction steps with
  | nil => cases hst
  | cons st' rest ih =>
    simp only [stepCalls, List.mem_append]
    rcases List.mem_cons.mp hst with h | h
    · left
      rw [← h]
      exact hx
    · right
      exact ih h

theorem rtvLoop_startupCalls (env : StartupEnv) (n i handle : Nat) :
    ∀ x ∈ (rtvLoop env n i handle).2, x.isStartupCall = true := by
  induction n generalizing i handle with
  | zero => simp [rtvLoop]
  | succ n ih =>
    simp only [rtvLoop]
    cases hb : SUCCEEDED (env.getBuffer i)
    · simp [Call.isStartupCall]
    · simp only [Bool.not_true, Bool.false_eq_true, if_false, List.mem_append]
      intro x hx
      rcases hx with hx | hx
      · simp only [List.mem_cons, List.mem_singleton, List.not_mem_nil, or_false] at hx
        rcases hx with hx | hx
        · rw [hx]; rfl
        · rw [hx]; rfl
      · exact ih _ _ x hx

theorem deviceSteps_startupCalls (env : StartupEnv) (a : Adapter) (st : Step)
    (hst : st ∈ deviceSteps env a) (x : Call) (hx : x ∈ st.calls) :
    x.isStartupCall = true := by
  unfold deviceSteps at hst
  simp only [List.mem_cons, List.mem_singleton, List.not_mem_nil, or_false] at hst
  rcases hst with h | h | h | h | h | h | h | h | h | h | h | h | h | h | h | h | h | h | h
  all_goals
    subst h
    first
      | exact rtvLoop_startupCalls _ _ _ _ x hx
      | (simp only [List.mem_cons, List.mem_singleton, List.not_mem_nil, or_false] at hx
         rcases hx with hx | hx
         all_goals
           subst hx
           rfl)
      | (simp only [List.mem_cons, List.mem_singleton, List.not_mem_nil, or_false] at hx
         subst hx
         rfl)

/-- The state startup leaves when it succeeds: counter 1, fence at its initial value 0,
nothing queued, and a log of startup calls only. -/
theorem startup_ready (ws : windowsize) (env : StartupEnv) (r : Handles) (s : State)
    (h : startup ws env = StartupResult.ready r s) :
    s.fenceValue = (0 + 1) % UINT32_SIZE ∧ s.completed = 0 ∧ s.queue = []
      ∧ ∀ x ∈ s.calls, x.isStartupCall = true := by
  unfold startup at h
  split at h
  · cases h
  · rename_i c0 hpre
    split at h
    · cases h
    · rename_i a hsel
      split at h
      · cases h
      · rename_i c hdev
        injection h with h1 h2
        subst h2
        refine ⟨rfl, rfl, rfl, ?_⟩
        intro x hx
        simp only at hx
        obtain ⟨l0, hl0, hfrom0⟩ := runSteps_calls (preDeviceSteps env) []
        obtain ⟨l1, hl1, hfrom1⟩ := runSteps_calls (deviceSteps env a) c0
        rw [hdev] at hl1
        rw [hpre] at hl0
        simp only at hl0 hl1
        rw [hl1] at hx
        rcases List.mem_append.mp hx with hx | hx
        · rw [hl0] at hx
          simp only [List.nil_append] at hx
          obtain ⟨st, hst, hxs⟩ := hfrom0 x hx
          have := List.all_eq_true.mp (preDeviceSteps_calls env).1 x
            (mem_stepCalls _ st hst x hxs)
          cases x <;> simp_all [Call.isStartupCall, Call.beforeDevice]
        · obtain ⟨st, hst, hxs⟩ := hfrom1 x hx
          exact deviceSteps_startupCalls env a st hst x hxs

theorem signalledValues_eq_nil (l : List Call) (h : ∀ x ∈ l, x.signalled? = none) :
    signalledValues l = [] := by
  induction l with
  | nil => rfl
  | cons c cs ih =>
    simp only [signalledValues, List.filterMap_cons, h c (List.mem_cons_self _ _)]
    exact ih (fun x hx => h x (List.mem_cons_of_mem _ hx))

theorem lastSignalled_append_nil (a b : List Call) (h : signalledValues b = []) :
    lastSignalled (a ++ b) = lastSignalled a := by
  simp [lastSignalled, signalledValues_append, h]

theorem lastSignalled_append_single (a b : List Call) (v : Nat) (h : signalledValues b = [v]) :
    lastSignalled (a ++ b) = v := by
  simp [lastSignalled, signalledValues_append, h]

theorem startupCall_facts (x : Call) (h : x.isStartupCall = true) :
    x.signalled? = none ∧ x.isExecute = false ∧ x.isRelease = false := by
  cases x <;>
    simp_all [Call.isStartupCall, Call.beforeDevice, Call.signalled?, Call.isExecute,
      Call.isRelease]

theorem frameCall_facts (x : Call) (h : x.isFrameCall = true) : x.isRelease = false := by
  cases x <;> simp_all [Call.isFrameCall, Call.isFenceQuery, Call.isRelease]

theorem reachable_counter (r : Handles) (ws : windowsize) (s : State) (h : Reachable r ws s) :
    s.fenceValue = (lastSignalled s.calls + 1) % UINT32_SIZE := by
  induction h with
  | fenceCreated env s hs =>
    obtain ⟨hfv, _, _, hcalls⟩ := startup_ready ws env r s hs
    have hnil : signalledValues s.calls = [] := by
      apply signalledValues_eq_nil
      intro x hx
      exact (startupCall_facts x (hcalls x hx)).1
    rw [hfv]
    simp [lastSignalled, hnil]
  | afterDraw env s _ ih =>
    obtain ⟨d, hd, _, hds⟩ := draw_newCalls r ws env s
    rw [(draw_fields r ws env s).1, hd, lastSignalled_append_nil _ _ hds]
    exact ih
  | afterWait env s s' _ hw ih =>
    obtain ⟨l, hl, hq, hok, hfail⟩ := wait_for_frame_spec env s s' hw
    have hlq := signalledValues_fenceQueries l hq
    cases hs : SUCCEEDED env.signal
    · rw [(hfail hs).1, hl]
      have : signalledValues (Call.Signal s.fenceValue env.signal :: l) = [] := by
        show signalledValues ([Call.Signal s.fenceValue env.signal] ++ l) = _
        rw [signalledValues_append, hlq]
        simp [signalledValues, Call.signalled?, hs]
      rw [lastSignalled_append_nil _ _ this]
      exact ih
    · rw [(hok hs).1, hl]
      have : signalledValues (Call.Signal s.fenceValue env.signal :: l) = [s.fenceValue] := by
        show signalledValues ([Call.Signal s.fenceValue env.signal] ++ l) = _
        rw [signalledValues_append, hlq]
        simp [signalledValues, Call.signalled?, hs]
      rw [lastSignalled_append_single _ _ _ this]

/-- C7, as the code has it: in every state reachable after the creation of the fence,
between calls, the counter equals the last value signalled successfully plus 1, taken
modulo 2 ^ 32 since the counter is a uint32_t; the initial value 0 of the fence
stands for the last value before any signal. -/
theorem fenceValue_follows_last_signal (r : Handles) (ws : windowsize) (s : State)
    (h : Reachable r ws s) :
    s.fenceValue = (lastSignalled s.calls + 1) % UINT32_SIZE :=
  reachable_counter r ws s h

theorem fenceValue_follows_last_signal_witness :
    Reachable sampleHandles sampleWindow sampleReady
      ∧ sampleReady.fenceValue = (lastSignalled sampleReady.calls + 1) % UINT32_SIZE :=
  ⟨Reachable.fenceCreated sampleEnv sampleReady rfl,
   fenceValue_follows_last_signal sampleHandles sampleWindow sampleReady
     (Reachable.fenceCreated sampleEnv sampleReady rfl)⟩

theorem paints_returns (r : Handles) (ws : windowsize) (frames : List PaintEnv) (s0 : State)
    (h : ∀ e ∈ frames, SUCCEEDED e.wait.signal = false ∨ SUCCEEDED e.wait.setEvent = true) :
    ∃ s, paints r ws frames s0 = some s := by
  induction frames generalizing s0 with
  | nil => exact ⟨s0, rfl⟩
  | cons e es ih =>
    have hw := wait_for_frame_returns e.wait (draw r ws e.draw s0) (h e (List.mem_cons_self _ _))
    obtain ⟨s1, hs1⟩ := Option.isSome_iff_exists.mp hw
    obtain ⟨s, hs⟩ := ih s1 (fun e' he' => h e' (List.mem_cons_of_mem _ he'))
    exact ⟨s, by simp only [paints, WindowProc, hs1, hs]⟩

theorem paints_reachable (r : Handles) (ws : windowsize) (frames : List PaintEnv)
    (s0 s : State) (h0 : Reachable r ws s0) (h : paints r ws frames s0 = some s) :
    Reachable r ws s := by
  induction frames generalizing s0 with
  | nil =>
    simp only [paints, Option.some.injEq] at h
    rw [← h]
    exact h0
  | cons e es ih =>
    obtain ⟨s1, h1, h2⟩ := paints_cons r ws e es s0 s h
    simp only [WindowProc] at h1
    exact ih s1 (Reachable.afterWait e.wait _ s1 (Reachable.afterDraw e.draw s0 h0) h1) h2

theorem map_mod_range'_of_lt (M a n : Nat) (h : a + n ≤ M) :
    (List.range' a n).map (· % M) = List.range' a n := by
  conv_rhs => rw [← List.map_id (List.range' a n)]
  apply List.map_congr_left
  intro x hx
  have := List.mem_range'_1.mp hx
  exact Nat.mod_eq_of_lt (by omega)

/-- C6, as the code has it: over any sequence of frames the counter advances by exactly
1, modulo 2 ^ 32, in each frame whose signal succeeds and stays where it is in a
frame whose signal fails, and the values signalled are consecutive from the initial
counter on; so over N frames whose signals all succeed, without wrap-around, the
counter grows by N and the values signalled are the N consecutive values. -/
theorem fenceValue_advances_with_signals (r : Handles) (ws : windowsize)
    (frames : List PaintEnv) (s0 s : State)
    (h : paints r ws frames s0 = some s) (h0 : s0.fenceValue < UINT32_SIZE) :
    s.fenceValue
        = (s0.fenceValue + frames.countP (fun e => SUCCEEDED e.wait.signal)) % UINT32_SIZE
      ∧ signalledValues (newCalls s0 s)
        = (List.range' s0.fenceValue
            (frames.countP (fun e => SUCCEEDED e.wait.signal))).map (· % UINT32_SIZE)
      ∧ ((∀ e ∈ frames, SUCCEEDED e.wait.signal = true) →
          s0.fenceValue + frames.length < UINT32_SIZE →
          s.fenceValue = s0.fenceValue + frames.length
            ∧ signalledValues (newCalls s0 s) = List.range' s0.fenceValue frames.length) := by
  obtain ⟨l, hl, _, hfv, hsig⟩ := paints_counter r ws frames s0 s h h0
  rw [newCalls_append s0 s l hl]
  refine ⟨hfv, hsig, ?_⟩
  intro hall hlt
  have hcount : frames.countP (fun e => SUCCEEDED e.wait.signal) = frames.length :=
    List.countP_eq_length.mpr (fun e he => hall e he)
  rw [hcount] at hfv hsig
  refine ⟨by rw [hfv, Nat.mod_eq_of_lt hlt], ?_⟩
  rw [hsig, map_mod_range'_of_lt _ _ _ (Nat.le_of_lt hlt)]

theorem fenceValue_advances_with_signals_witness :
    sampleState.fenceValue < UINT32_SIZE
      ∧ paints sampleHandles sampleWindow [frameOk, frameSignalFails, frameOk] sampleState
          = some { fenceValue := 4, frameIndex := 1, completed := 3, queue := [],
                   calls := (paints sampleHandles sampleWindow
                     [frameOk, frameSignalFails, frameOk] sampleState).elim [] State.calls }
      ∧ (4 : Nat) = (sampleState.fenceValue
          + [frameOk, frameSignalFails, frameOk].countP (fun e => SUCCEEDED e.wait.signal))
            % UINT32_SIZE :=
  ⟨by decide, by rfl,
   (fenceValue_advances_with_signals sampleHandles sampleWindow
      [frameOk, frameSignalFails, frameOk] sampleState
      { fenceValue := 4, frameIndex := 1, completed := 3, queue := [],
        calls := (paints sampleHandles sampleWindow
          [frameOk, frameSignalFails, frameOk] sampleState).elim [] State.calls }
      (by rfl) (by decide)).1⟩

/-- C6 as stated fails: a frame whose signal fails leaves the counter where it was
(2 after startup, and still 2 after the frame), and a counter at 2 ^ 32 - 1 goes to 0. -/
theorem fenceValue_frame_without_increment :
    (sampleFrames []).map State.fenceValue = some 2
      ∧ (sampleFrames [frameSignalFails]).map State.fenceValue = some 2
      ∧ (sampleFrames [frameSignalFails]).map
          (fun s => signalledValues (s.calls.drop sampleReady.calls.length)) = some [1]
      ∧ (wait_for_frame waitOk
          { sampleState with fenceValue := 4294967295, completed := 4294967294 }).map
            State.fenceValue = some 0 := by
  refine ⟨by rfl, by rfl, by rfl, by rfl⟩

/-- C7 as stated fails at the wrap-around of the uint32_t counter: after the sample
startup, the first wait and 2 ^ 32 - 2 frames in which every call succeeds, the
counter is 0, which is no value plus 1. -/
theorem fenceValue_wraps_to_zero :
    ∃ s, Reachable sampleHandles sampleWindow s ∧ s.fenceValue = 0
      ∧ s.fenceValue ≠ lastSignalled s.calls + 1 := by
  have hready : Reachable sampleHandles sampleWindow sampleReady :=
    Reachable.fenceCreated sampleEnv sampleReady rfl
  obtain ⟨s1, hs1⟩ := Option.isSome_iff_exists.mp
    (wait_for_frame_returns waitOk sampleReady (Or.inr (by decide)))
  obtain ⟨_, _, _, hok, _⟩ := wait_for_frame_spec waitOk sampleReady s1 hs1
  have hfv1 : s1.fenceValue = 2 := by
    rw [(hok (by decide)).1]
    rfl
  have hreach1 : Reachable sampleHandles sampleWindow s1 :=
    Reachable.afterWait waitOk sampleReady s1 hready hs1
  obtain ⟨s, hs⟩ := paints_returns sampleHandles sampleWindow
    (List.replicate 4294967294 frameOk) s1
    (fun e he => by rw [List.eq_of_mem_replicate he]; exact Or.inr (by decide))
  obtain ⟨_, _, _, hfv, _⟩ := paints_counter sampleHandles sampleWindow _ s1 s hs
    (by rw [hfv1]; decide)
  have hcount : (List.replicate 4294967294 frameOk).countP
      (fun e => SUCCEEDED e.wait.signal) = 4294967294 := by
    rw [List.countP_eq_length.mpr
      (fun e he => by rw [List.eq_of_mem_replicate he]; decide), List.length_replicate]
  have hzero : s.fenceValue = 0 := by
    rw [hfv, hcount, hfv1]
    decide
  refine ⟨s, paints_reachable _ _ _ s1 s hreach1 hs, hzero, ?_⟩
  rw [hzero]
  exact (Nat.succ_ne_zero _).symm

theorem afterLastExecute_of_none (w : List Call) (hw : w.any Call.isExecute = false) :
    afterLastExecute w = w := by
  induction w with
  | nil => rfl
  | cons c cs ih =>
    simp only [List.any_cons, Bool.or_eq_false_iff] at hw
    simp [afterLastExecute, hw.1, hw.2]

theorem afterLastExecute_suffix (a w : List Call) (hw : w.any Call.isExecute = false) :
    ∀ x ∈ w, x ∈ afterLastExecute (a ++ w) := by
  induction a with
  | nil =>
    intro x hx
    rw [List.nil_append, afterLastExecute_of_none w hw]
    exact hx
  | cons c a' ih =>
    intro x hx
    simp only [List.cons_append, afterLastExecute]
    cases hany : (a' ++ w).any Call.isExecute
    · cases hc : c.isExecute
      · simp [hx]
      · simp [hx]
    · simpa using ih x hx

theorem paints_append (r : Handles) (ws : windowsize) (a b : List PaintEnv) (s0 s : State)
    (h : paints r ws (a ++ b) s0 = some s) :
    ∃ s1, paints r ws a s0 = some s1 ∧ paints r ws b s1 = some s := by
  induction a generalizing s0 with
  | nil => exact ⟨s0, rfl, h⟩
  | cons e es ih =>
    obtain ⟨s1, h1, h2⟩ := paints_cons r ws e (es ++ b) s0 s h
    obtain ⟨s2, h3, h4⟩ := ih s1 h2
    exact ⟨s2, by simp only [paints, h1, h3], h4⟩

theorem fenceQuery_not_execute (l : List Call) (h : l.all Call.isFenceQuery = true) :
    l.any Call.isExecute = false := by
  induction l with
  | nil => rfl
  | cons c cs ih =>
    simp only [List.all_cons, Bool.and_eq_true] at h
    have hc : c.isExecute = false := by
      cases c <;> simp_all [Call.isFenceQuery, Call.isExecute]
    simp [hc, ih h.2]

/-- After a call of wait_for_frame whose signal succeeded, and whatever the GPU does
next, the allocator may be reset. -/
theorem resetIsSafe_after_wait (env : WaitEnv) (s s' : State)
    (h : wait_for_frame env s = some s') (hs : SUCCEEDED env.signal = true) (k : Nat) :
    resetIsSafe (gpuAdvance k s') = true := by
  obtain ⟨l, hl, hq, hok, _⟩ := wait_for_frame_spec env s s' h
  have hmem : Call.Signal s.fenceValue env.signal ∈ afterLastExecute s'.calls := by
    rw [hl]
    apply afterLastExecute_suffix
    · simp [Call.isExecute, fenceQuery_not_execute l hq]
    · exact List.mem_cons_self _ _
  have hle : s.fenceValue ≤ (gpuRun k s'.completed s'.queue).1 :=
    le_trans (hok hs).2 (le_gpuRun _ _ _)
  simp only [resetIsSafe, gpuAdvance, Bool.or_eq_true, List.any_eq_true]
  right
  exact ⟨_, hmem, by simp [Call.signalled?, hs, hle]⟩

/-- The fence condition at a reset: in an execution made of startup, the first wait and
any sequence of paint notifications, whenever draw is about to reset the allocator and
the signal of the wait_for_frame call just before succeeded (or no frame has been
drawn yet), either nothing has been submitted so far or a signal made after the most
recent ExecuteCommandLists carries a value that the fence has completed, whatever
progress the GPU makes before the reset.  This holds also after the counter has wrapped
around, when it no longer tells that the GPU has finished. -/
theorem fence_condition_at_reset (ws : windowsize) (env : StartupEnv) (first : WaitEnv)
    (frames : List PaintEnv) (r : Handles) (sr s0 s : State)
    (hstart : startup ws env = StartupResult.ready r sr)
    (hfirst : wait_for_frame first sr = some s0)
    (hrun : paints r ws frames s0 = some s)
    (hsig : ∀ e, frames.getLast? = some e → SUCCEEDED e.wait.signal = true) (k : Nat) :
    resetIsSafe (gpuAdvance k s) = true := by
  rcases List.eq_nil_or_concat frames with hnil | ⟨pre, e, hcat⟩
  · subst hnil
    simp only [paints, Option.some.injEq] at hrun
    subst hrun
    obtain ⟨l, hl, hq, _, _⟩ := wait_for_frame_spec first sr s0 hfirst
    obtain ⟨_, _, _, hcalls⟩ := startup_ready ws env r sr hstart
    have h1 : sr.calls.any Call.isExecute = false := by
      rw [List.any_eq_false]
      intro x hx
      simp [(startupCall_facts x (hcalls x hx)).2.1]
    have h2 : s0.calls.any Call.isExecute = false := by
      rw [hl]
      simp [h1, Call.isExecute, fenceQuery_not_execute l hq]
    simp [resetIsSafe, gpuAdvance, h2]
  · rw [List.concat_eq_append] at hcat
    subst hcat
    obtain ⟨s1, _, h2⟩ := paints_append r ws pre [e] s0 s hrun
    obtain ⟨s2, h3, h4⟩ := paints_cons r ws e [] s1 s h2
    simp only [paints, Option.some.injEq] at h4
    subst h4
    simp only [WindowProc] at h3
    exact resetIsSafe_after_wait e.wait _ s2 h3 (hsig e (by simp)) k

/-- C2 as stated fails: after the sample startup and one frame whose signal fails,
wait_for_frame has returned without waiting; at the next reset of the allocator the
command list submitted by the frame is still in the queue, and no signal has been
made since it was submitted, whether or not the GPU goes on to execute it. -/
theorem reset_without_completed_signal :
    (sampleFrames [frameSignalFails]).map
        (fun s => (resetIsSafe (gpuAdvance 0 s), resetIsSafe (gpuAdvance 1 s), s.queue))
      = some (false, false, [QueueItem.exec]) := by
  rfl

theorem filter_release_nil (l : List Call)
    (h : ∀ x ∈ l, x.isStartupCall = true ∨ x.isFrameCall = true) :
    l.filter Call.isRelease = [] := by
  rw [List.filter_eq_nil_iff]
  intro x hx
  rcases h x hx with h | h
  · simp [(startupCall_facts x h).2.2]
  · simp [frameCall_facts x h]

theorem windowProc_calls (r : Handles) (ws : windowsize) (m : Msg) (s s' : State)
    (h : WindowProc r ws m s = some s') :
    ∃ l, s'.calls = s.calls ++ l ∧ l.all Call.isFrameCall = true := by
  cases m with
  | WM_PAINT e =>
    obtain ⟨l, hl, hf, _, _⟩ := paint_spec r ws e s s' h
    exact ⟨l, hl, hf⟩
  | WM_CREATE | WM_DESTROY | WM_CLOSE | WM_QUIT | WM_OTHER =>
    simp only [WindowProc, Option.some.injEq] at h
    subst h
    exact ⟨[], by simp, rfl⟩

theorem mainLoop_calls (r : Handles) (ws : windowsize) (msgs : List Msg) (s s' : State)
    (h : mainLoop r ws msgs s = some s') :
    ∃ l, s'.calls = s.calls ++ l ∧ l.all Call.isFrameCall = true := by
  induction msgs generalizing s with
  | nil => simp [mainLoop] at h
  | cons m rest ih =>
    simp only [mainLoop] at h
    split at h
    · simp only [Option.some.injEq] at h
      subst h
      exact ⟨[], by simp, rfl⟩
    · split at h
      · cases h
      · rename_i s1 h1
        obtain ⟨l1, hl1, hf1⟩ := windowProc_calls r ws m s s1 h1
        obtain ⟨l2, hl2, hf2⟩ := ih s1 h
        exact ⟨l1 ++ l2, by rw [hl2, hl1]; simp, by simp [hf1, hf2]⟩

theorem wait_for_frame_calls (env : WaitEnv) (s s' : State)
    (h : wait_for_frame env s = some s') :
    ∃ l, s'.calls = s.calls ++ l ∧ l.all Call.isFrameCall = true := by
  obtain ⟨l, hl, hq, _, _⟩ := wait_for_frame_spec env s s' h
  exact ⟨Call.Signal s.fenceValue env.signal :: l, hl,
    by simp [Call.isFrameCall, fenceQuery_isFrameCall l hq]⟩

/-- C10, as the code has it: a run of WinMain that starts up and returns has exit code 0
and releases, in this order and each once: vertex buffer, fence, fence event, the two
back buffers, the debug interface in a debug build, factory, adapter, device, queue,
swap chain, RTV heap, command allocator, root signature, pipeline state, command
list.  The frame resources and back buffers go first; the objects of the renderer
follow in the order in which they were created, the device before the objects made
from it. -/
theorem shutdown_release_order (ws : windowsize) (env : StartupEnv) (first last : WaitEnv)
    (msgs : List Msg) (out : Outcome) (r : Handles) (sr : State)
    (hstart : startup ws env = StartupResult.ready r sr)
    (hrun : WinMain ws env first msgs last = some out) :
    out.exitCode = 0
      ∧ out.calls.filter Call.isRelease
        = [Call.Release Obj.vertexBuffer, Call.Release Obj.fence, Call.CloseHandle Obj.fenceEvent,
           Call.Release (Obj.target 0), Call.Release (Obj.target 1)]
          ++ (if env.buildDebug then [Call.Release Obj.debug] else [])
          ++ [Call.Release Obj.factory, Call.Release Obj.adapter, Call.Release Obj.device,
              Call.Release Obj.queue, Call.Release Obj.swapchain,
              Call.Release Obj.rtvDescriptorHeap, Call.Release Obj.commandAllocator,
              Call.Release Obj.rootSignature, Call.Release Obj.pipeline,
              Call.Release Obj.cmdlist] := by
  unfold WinMain at hrun
  rw [hstart] at hrun
  simp only at hrun
  split at hrun
  · cases hrun
  · rename_i s1 h1
    split at hrun
    · cases hrun
    · rename_i s2 h2
      split at hrun
      · cases hrun
      · rename_i s3 h3
        simp only [Option.some.injEq] at hrun
        subst hrun
        refine ⟨rfl, ?_⟩
        obtain ⟨_, _, _, hcalls⟩ := startup_ready ws env r sr hstart
        obtain ⟨l1, hl1, hf1⟩ := wait_for_frame_calls first sr s1 h1
        obtain ⟨l2, hl2, hf2⟩ := mainLoop_calls r ws msgs s1 s2 h2
        obtain ⟨l3, hl3, hf3⟩ := wait_for_frame_calls last s2 s3 h3
        have hnil : s3.calls.filter Call.isRelease = [] := by
          apply filter_release_nil
          intro x hx
          rw [hl3, hl2, hl1] at hx
          simp only [List.mem_append] at hx
          rcases hx with ((hx | hx) | hx) | hx
          · exact Or.inl (hcalls x hx)
          · exact Or.inr (List.all_eq_true.mp hf1 x hx)
          · exact Or.inr (List.all_eq_true.mp hf2 x hx)
          · exact Or.inr (List.all_eq_true.mp hf3 x hx)
        simp only [List.filter_append, hnil, List.nil_append, shutdownCalls]
        cases env.buildDebug <;> rfl

theorem shutdown_release_order_witness :
    startup sampleWindow sampleEnv = StartupResult.ready sampleHandles sampleReady
      ∧ (sampleRun.getD { exitCode := 1, calls := [] }).exitCode = 0 :=
  ⟨rfl,
   (shutdown_release_order sampleWindow sampleEnv waitOk waitOk
      [Msg.WM_PAINT { draw := drawOk, wait := waitOk }, Msg.WM_QUIT]
      (sampleRun.getD { exitCode := 1, calls := [] }) sampleHandles sampleReady rfl rfl).1⟩

/-- C10 as stated fails: in the sample run, which shuts down cleanly, the device is
not released after the objects created from it (queue, RTV heap, allocator, root
signature, pipeline state and command list are all released after the device), the
queue is released before the swap chain, and the swap chain and RTV heap are
released before the pipeline objects. -/
theorem device_released_before_its_children :
    sampleRun.map (fun out =>
        (out.exitCode,
         deviceChildren.map (fun o => releasedAfter out.calls Obj.device o),
         releasedAfter out.calls Obj.queue Obj.swapchain,
         releasedAfter out.calls Obj.swapchain Obj.rootSignature,
         releasedAfter out.calls Obj.rtvDescriptorHeap Obj.cmdlist))
      = some (0, [false, false, false, false, false, false, true, true], false, false, false) := by
  rfl

theorem gpuRun_nil (n c : Nat) : gpuRun n c [] = (c, []) := by
  cases n <;> rfl

theorem gpuStep_lt (c v : Nat) (item : QueueItem) (q : List QueueItem) (hc : c < v)
    (hq : ∀ x, QueueItem.signal x ∈ item :: q → x < v) : gpuStep c item < v := by
  cases item with
  | exec => exact hc
  | signal x =>
    simp only [gpuStep]
    exact max_lt hc (hq x (List.mem_cons_self _ _))

/-- The GPU working through a queue that ends in the signal of `v`, all earlier values
being below `v`: either it has executed everything and the fence is at `v`, or the
signal of `v` is still queued and the fence is below `v`. -/
theorem gpuRun_sync (n : Nat) (q : List QueueItem) (c v : Nat) (hc : c < v)
    (hq : ∀ x, QueueItem.signal x ∈ q → x < v) :
    ((gpuRun n c (q ++ [QueueItem.signal v])).1 = v
        ∧ (gpuRun n c (q ++ [QueueItem.signal v])).2 = [])
      ∨ ((gpuRun n c (q ++ [QueueItem.signal v])).1 < v
        ∧ ∃ q', (gpuRun n c (q ++ [QueueItem.signal v])).2 = q' ++ [QueueItem.signal v]
            ∧ ∀ x, QueueItem.signal x ∈ q' → x < v) := by
  induction n generalizing q c with
  | zero => exact Or.inr ⟨hc, q, rfl, hq⟩
  | succ n ih =>
    cases q with
    | nil =>
      left
      simp only [List.nil_append, gpuRun, gpuStep, gpuRun_nil]
      exact ⟨max_eq_right (Nat.le_of_lt hc), trivial⟩
    | cons item rest =>
      simp only [List.cons_append, gpuRun]
      exact ih rest _ (gpuStep_lt c v item rest hc hq)
        (fun x hx => hq x (List.mem_cons_of_mem _ hx))

theorem waitEvent_sync (q : List QueueItem) (c v : Nat) (hc : c < v)
    (hq : ∀ x, QueueItem.signal x ∈ q → x < v) :
    waitEvent v c (q ++ [QueueItem.signal v]) = some (v, []) := by
  induction q generalizing c with
  | nil =>
    simp only [List.nil_append, waitEvent, Nat.not_le.mpr hc, if_false, gpuStep,
      max_eq_right (Nat.le_of_lt hc), le_refl, if_true]
  | cons item rest ih =>
    simp only [List.cons_append, waitEvent, Nat.not_le.mpr hc, if_false]
    exact ih _ (gpuStep_lt c v item rest hc hq) (fun x hx => hq x (List.mem_cons_of_mem _ hx))

/-- A call of wait_for_frame whose signal succeeds, made while the counter is ahead and
short of wrap-around, returns only when the GPU has executed everything submitted:
the queue is empty and the fence is at the value signalled. -/
theorem wait_for_frame_drains (env : WaitEnv) (s s' : State)
    (h : wait_for_frame env s = some s') (hs : SUCCEEDED env.signal = true)
    (hinv : CounterAhead s) (hwrap : s.fenceValue + 1 < UINT32_SIZE) :
    s'.queue = [] ∧ s'.completed = s.fenceValue ∧ CounterAhead s' := by
  have hsync := gpuRun_sync env.gpuSteps s.queue s.completed s.fenceValue hinv.1 hinv.2
  unfold wait_for_frame at h
  simp only [hs, Bool.not_true, Bool.false_eq_true, if_false] at h
  have hfv : (s.fenceValue + 1) % UINT32_SIZE = s.fenceValue + 1 := Nat.mod_eq_of_lt hwrap
  split at h
  · rename_i hlt
    rcases hsync with ⟨heq, _⟩ | ⟨_, q', hq', hlt'⟩
    · omega
    · split at h
      · split at h
        · cases h
        · rename_i g' hw
          rw [hq', waitEvent_sync q' _ _ hlt hlt'] at hw
          cases hw
          cases h
          refine ⟨rfl, rfl, ?_, ?_⟩
          · simp only [hfv]
            omega
          · intro v hv
            cases hv
      · cases h
  · rename_i hge
    simp only [not_lt] at hge
    rcases hsync with ⟨heq, hnil⟩ | ⟨hlt, _⟩
    · cases h
      refine ⟨hnil, heq, ?_, ?_⟩
      · simp only [hfv, heq]
        omega
      · intro v hv
        simp only [hnil] at hv
        cases hv
    · omega

theorem wait_for_frame_counterAhead (env : WaitEnv) (s s' : State)
    (h : wait_for_frame env s = some s') (hinv : CounterAhead s)
    (hwrap : s.fenceValue + 1 < UINT32_SIZE) : CounterAhead s' := by
  cases hs : SUCCEEDED env.signal
  · obtain ⟨_, _, _, _, hfail⟩ := wait_for_frame_spec env s s' h
    obtain ⟨h1, h2, h3, _, _⟩ := hfail hs
    unfold CounterAhead
    rw [h1, h2, h3]
    exact hinv
  · exact (wait_for_frame_drains env s s' h hs hinv hwrap).2.2

theorem draw_counterAhead (r : Handles) (ws : windowsize) (env : DrawEnv) (s : State)
    (hinv : CounterAhead s) : CounterAhead (draw r ws env s) := by
  obtain ⟨h1, _, h3⟩ := draw_fields r ws env s
  unfold CounterAhead
  rw [h1, h3]
  refine ⟨hinv.1, ?_⟩
  intro v hv
  apply hinv.2 v
  unfold draw at hv
  simp only [] at hv
  split at hv
  · exact hv
  · split at hv
    · exact hv
    · simpa using hv

/-- C5, an instance: with a software adapter only, WinMain returns at the adapter check
after the enumeration has run out of adapters. -/
theorem software_only_startup_aborts :
    WinMain sampleWindow softwareOnlyEnv waitOk [Msg.WM_QUIT] waitOk
      = some { exitCode := returnFalse,
               calls := [Call.RegisterClassEx true, Call.CreateWindowEx true,
                         Call.CreateDXGIFactory2 S_OK, Call.EnumAdapters1 0 (some 11),
                         Call.GetDesc1 11, Call.EnumAdapters1 1 none] } := by
  rfl

theorem applyBarriers_append (a b : List D3D12_RESOURCE_BARRIER)
    (st st' : Nat → D3D12_RESOURCE_STATES) (h : applyBarriers a st = some st') :
    applyBarriers (a ++ b) st = applyBarriers b st' := by
  induction a generalizing st with
  | nil =>
    simp only [applyBarriers, Option.some.injEq] at h
    rw [List.nil_append, h]
  | cons x xs ih =>
    simp only [List.cons_append, applyBarriers] at h ⊢
    split at h
    · cases h
    · rename_i st1 h1
      exact ih st1 h

theorem barriers_fenceQueries (l : List Call) (h : l.all Call.isFenceQuery = true) :
    l.filterMap Call.barrier? = [] := by
  induction l with
  | nil => rfl
  | cons c cs ih =>
    simp only [List.all_cons, Bool.and_eq_true] at h
    have hc : c.barrier? = none := by
      cases c <;> simp_all [Call.isFenceQuery, Call.barrier?]
    simp only [List.filterMap_cons, hc]
    exact ih h.2

theorem draw_barriers_valid (r : Handles) (ws : windowsize) (env : DrawEnv) (s : State)
    (st : Nat → D3D12_RESOURCE_STATES)
    (hst : st (r.targets s.frameIndex) = D3D12_RESOURCE_STATES.PRESENT) :
    ∃ d, (draw r ws env s).calls = s.calls ++ d
      ∧ applyBarriers (d.filterMap Call.barrier?) st = some st := by
  refine ⟨_, draw_calls r ws env s, ?_⟩
  cases SUCCEEDED env.allocatorReset
  · simp [Call.barrier?, applyBarriers]
  · cases SUCCEEDED env.cmdlistReset
    · simp [Call.barrier?, applyBarriers]
    · simp only [Bool.not_true, Bool.false_eq_true, if_false, recordedCommands, List.map_cons,
        List.map_nil, List.cons_append, List.nil_append, List.filterMap_cons, Call.barrier?,
        List.filterMap_nil, applyBarriers, applyBarrier, hst, if_true, Function.update_same]
      congr 1
      funext x
      by_cases hx : x = r.targets s.frameIndex
      · subst hx
        simp [hst]
      · simp [Function.update, hx]

/-- C8 over a sequence: with every back buffer in the PRESENT state at the start, the
barriers recorded by any sequence of frames, applied in order, are all valid and leave
every resource in the state it had. -/
theorem paints_barriers_round_trip (r : Handles) (ws : windowsize) (frames : List PaintEnv)
    (s0 s : State) (st : Nat → D3D12_RESOURCE_STATES)
    (h : paints r ws frames s0 = some s)
    (hst : ∀ i, st (r.targets i) = D3D12_RESOURCE_STATES.PRESENT) :
    ∃ l, s.calls = s0.calls ++ l ∧ applyBarriers (l.filterMap Call.barrier?) st = some st := by
  induction frames generalizing s0 with
  | nil =>
    simp only [paints, Option.some.injEq] at h
    subst h
    exact ⟨[], by simp, rfl⟩
  | cons e es ih =>
    obtain ⟨s1, h1, h2⟩ := paints_cons r ws e es s0 s h
    simp only [WindowProc] at h1
    obtain ⟨d, hd, hdv⟩ := draw_barriers_valid r ws e.draw s0 st (hst _)
    obtain ⟨q, hq, hqf, _, _⟩ := wait_for_frame_spec e.wait _ s1 h1
    obtain ⟨l2, hl2, hv2⟩ := ih s1 h2
    refine ⟨d ++ (Call.Signal (draw r ws e.draw s0).fenceValue e.wait.signal :: q) ++ l2, ?_, ?_⟩
    · rw [hl2, hq, hd]
      simp
    · rw [List.filterMap_append, List.filterMap_append,
        applyBarriers_append _ _ st st (by
          rw [applyBarriers_append _ _ st st hdv]
          simp [Call.barrier?, barriers_fenceQueries q hqf, applyBarriers])]
      exact hv2

/-- The views created at startup: when both back buffers are obtained, the loop of lines
389-396 creates the view of back buffer `i` at the handle that
`get_descriptor_handle_d3d12` computes for index `i`, for both indices. -/
theorem rtvLoop_handles (env : StartupEnv)
    (h0 : SUCCEEDED (env.getBuffer 0) = true) (h1 : SUCCEEDED (env.getBuffer 1) = true) :
    rtvLoop env NUM_RENDERTARGETS 0 (get_descriptor_handle_d3d12 env.heapStart env.rtvIncrement 0)
      = (true,
         [Call.GetBuffer 0 (env.getBuffer 0),
          Call.CreateRenderTargetView (env.targets 0)
            (get_descriptor_handle_d3d12 env.heapStart env.rtvIncrement 0),
          Call.GetBuffer 1 (env.getBuffer 1),
          Call.CreateRenderTargetView (env.targets 1)
            (get_descriptor_handle_d3d12 env.heapStart env.rtvIncrement 1)]) := by
  simp [NUM_RENDERTARGETS, rtvLoop, h0, h1, get_descriptor_handle_d3d12]

theorem runSteps_none (steps : List Step) (c c' : List Call)
    (h : runSteps steps c = (none, c')) :
    (∀ st ∈ steps, st.ok = true) ∧ c' = c ++ stepCalls steps := by
  induction steps generalizing c with
  | nil =>
    simp only [runSteps, Prod.mk.injEq, true_and] at h
    simp [stepCalls, h]
  | cons st rest ih =>
    simp only [runSteps] at h
    cases hok : st.ok
    · simp [hok] at h
    · simp only [hok, if_true] at h
      obtain ⟨h1, h2⟩ := ih _ h
      refine ⟨?_, by rw [h2]; simp [stepCalls]⟩
      intro st' hst'
      rcases List.mem_cons.mp hst' with h' | h'
      · rw [h']; exact hok
      · exact h1 st' h'

/-- What a successful startup leaves: the handles are those the environment gave, and
the log is the calls of all blocks, in order. -/
theorem startup_ready_calls (ws : windowsize) (env : StartupEnv) (r : Handles) (s : State)
    (h : startup ws env = StartupResult.ready r s) :
    ∃ a, s.calls = stepCalls (preDeviceSteps env) ++ stepCalls (deviceSteps env a)
      ∧ (∀ st ∈ deviceSteps env a, st.ok = true)
      ∧ r.targets = env.targets ∧ r.heapStart = env.heapStart
      ∧ r.rtvIncrement = env.rtvIncrement
      ∧ r.vertexData = vertices (aspectOf ws)
      ∧ r.vertexBufferView
          = { BufferLocation := env.vertexBufferAddress
              StrideInBytes := sizeof_float * (3 + 4)
              SizeInBytes := sizeof_vertices } := by
  unfold startup at h
  split at h
  · cases h
  · rename_i c0 hpre
    split at h
    · cases h
    · rename_i a hsel
      split at h
      · cases h
      · rename_i c hdev
        injection h with h1 h2
        subst h1 h2
        obtain ⟨_, hc0⟩ := runSteps_none _ _ _ hpre
        obtain ⟨hok, hc⟩ := runSteps_none _ _ _ hdev
        refine ⟨a, ?_, hok, rfl, rfl, rfl, rfl, rfl⟩
        simp only [hc, hc0, List.nil_append]

theorem view?_of_frameCall (handle : Nat) (x : Call) (h : x.isFrameCall = true) :
    x.view? handle = none := by
  cases x <;> simp_all [Call.isFrameCall, Call.isFenceQuery, Call.view?]

theorem view?_of_beforeDevice (handle : Nat) (x : Call) (h : x.beforeDevice = true) :
    x.view? handle = none := by
  cases x <;> simp_all [Call.beforeDevice, Call.view?]

theorem filterMap_view?_nil (handle : Nat) (l : List Call)
    (h : ∀ x ∈ l, x.view? handle = none) : l.filterMap (Call.view? handle) = [] := by
  induction l with
  | nil => rfl
  | cons c cs ih =>
    simp only [List.filterMap_cons, h c (List.mem_cons_self _ _)]
    exact ih (fun x hx => h x (List.mem_cons_of_mem _ hx))

theorem rtvLoop_ok (env : StartupEnv) (handle : Nat)
    (h : (rtvLoop env NUM_RENDERTARGETS 0 handle).1 = true) :
    SUCCEEDED (env.getBuffer 0) = true ∧ SUCCEEDED (env.getBuffer 1) = true := by
  simp only [NUM_RENDERTARGETS, rtvLoop] at h
  cases h0 : SUCCEEDED (env.getBuffer 0)
  · simp [h0] at h
  · cases h1 : SUCCEEDED (env.getBuffer 1)
    · simp [h0, h1] at h
    · exact ⟨rfl, rfl⟩

/-- The views in the log of a successful startup: the log writes the view of back buffer
0 at the handle of index 0 and then the view of back buffer 1 at the handle of index
1, and no other view. -/
theorem startup_views (ws : windowsize) (env : StartupEnv) (r : Handles) (s : State)
    (h : startup ws env = StartupResult.ready r s) (handle : Nat) :
    s.calls.filterMap (Call.view? handle)
      = (if get_descriptor_handle_d3d12 r.heapStart r.rtvIncrement 0 = handle
          then [r.targets 0] else [])
        ++ (if get_descriptor_handle_d3d12 r.heapStart r.rtvIncrement 1 = handle
          then [r.targets 1] else []) := by
  obtain ⟨a, hcalls, hok, ht, hh, hi, _, _⟩ := startup_ready_calls ws env r s h
  have hloop : (rtvLoop env NUM_RENDERTARGETS 0
      (get_descriptor_handle_d3d12 env.heapStart env.rtvIncrement 0)).1 = true := by
    have := hok { calls := (rtvLoop env NUM_RENDERTARGETS 0
                  (get_descriptor_handle_d3d12 env.heapStart env.rtvIncrement 0)).2,
                  ok := (rtvLoop env NUM_RENDERTARGETS 0
                  (get_descriptor_handle_d3d12 env.heapStart env.rtvIncrement 0)).1,
                  exitCode := returnFalse } (by simp [deviceSteps])
    exact this
  obtain ⟨h0, h1⟩ := rtvLoop_ok env _ hloop
  have hpre : (stepCalls (preDeviceSteps env)).filterMap (Call.view? handle) = [] :=
    filterMap_view?_nil handle _ (fun x hx =>
      view?_of_beforeDevice handle x (List.all_eq_true.mp (preDeviceSteps_calls env).1 x hx))
  rw [hcalls, List.filterMap_append, hpre, List.nil_append, ht, hh, hi]
  simp only [deviceSteps, stepCalls, rtvLoop_handles env h0 h1]
  by_cases e0 : get_descriptor_handle_d3d12 env.heapStart env.rtvIncrement 0 = handle <;>
    by_cases e1 : get_descriptor_handle_d3d12 env.heapStart env.rtvIncrement 1 = handle <;>
    simp [Call.view?, e0, e1]
theorem reachable_calls (r : Handles) (ws : windowsize) (s : State) (h : Reachable r ws s) :
    ∃ env s0 l, startup ws env = StartupResult.ready r s0 ∧ s.calls = s0.calls ++ l
      ∧ l.all Call.isFrameCall = true := by
  induction h with
  | fenceCreated env s hs => exact ⟨env, s, [], hs, by simp, rfl⟩
  | afterDraw denv s _ ih =>
    obtain ⟨env, s0, l, hs0, hl, hf⟩ := ih
    obtain ⟨d, hd, hdf, _⟩ := draw_newCalls r ws denv s
    exact ⟨env, s0, l ++ d, hs0, by rw [hd, hl]; simp, by simp [hf, hdf]⟩
  | afterWait wenv s s' _ hw ih =>
    obtain ⟨env, s0, l, hs0, hl, hf⟩ := ih
    obtain ⟨q, hq, hqf⟩ := wait_for_frame_calls wenv s s' hw
    exact ⟨env, s0, l ++ q, hs0, by rw [hq, hl]; simp, by simp [hf, hqf]⟩

theorem handles_distinct (heapStart incrementSize : Nat) (hpos : 0 < incrementSize)
    (hlt : incrementSize < UINT32_SIZE) :
    get_descriptor_handle_d3d12 heapStart incrementSize 0
      ≠ get_descriptor_handle_d3d12 heapStart incrementSize 1 := by
  simp only [get_descriptor_handle_d3d12, SIZE_T_SIZE, UINT32_SIZE] at *
  norm_num at *
  omega

/-- The view the RTV heap holds, in any state reachable after startup, at the handle of
a back-buffer index: the view of that back buffer. -/
theorem reachable_view (r : Handles) (ws : windowsize) (s : State) (h : Reachable r ws s)
    (hpos : 0 < r.rtvIncrement) (hlt : r.rtvIncrement < UINT32_SIZE)
    (i : Nat) (hi : i < NUM_RENDERTARGETS) :
    viewAt s.calls (get_descriptor_handle_d3d12 r.heapStart r.rtvIncrement i)
      = some (r.targets i) := by
  obtain ⟨env, s0, l, hs0, hl, hf⟩ := reachable_calls r ws s h
  have hnil : l.filterMap (Call.view?
      (get_descriptor_handle_d3d12 r.heapStart r.rtvIncrement i)) = [] :=
    filterMap_view?_nil _ l (fun x hx => view?_of_frameCall _ x (List.all_eq_true.mp hf x hx))
  have hne := handles_distinct r.heapStart r.rtvIncrement hpos hlt
  unfold viewAt
  rw [hl, List.filterMap_append, hnil, List.append_nil, startup_views ws env r s0 hs0]
  have hcases : i = 0 ∨ i = 1 := by
    simp only [NUM_RENDERTARGETS] at hi
    omega
  rcases hcases with rfl | rfl
  · simp [Ne.symm hne]
  · simp

theorem view?_eq_some (handle resource : Nat) (x : Call)
    (h : x.view? handle = some resource) : x = Call.CreateRenderTargetView resource handle := by
  cases x <;> simp_all [Call.view?]
/-- C11: for every index, index 0 included, get_descriptor_handle_d3d12 returns
heap_start + index * increment, computed as the source computes it, in size_t
arithmetic (and so that very sum whenever the sum fits a size_t); for each back-buffer
index below NUM_RENDERTARGETS startup creates the view of targets[index] at that
handle; hence, in every state reachable after startup, the one render target that draw
binds is the handle for frameIndex, the barriers of the frame are on
targets[frameIndex], and the RTV heap holds at that handle the view of
targets[frameIndex]. -/
theorem descriptor_handle_matches_view :
    (∀ heapStart incrementSize index : Nat, heapStart < SIZE_T_SIZE →
        get_descriptor_handle_d3d12 heapStart incrementSize index
          = (heapStart + index * incrementSize) % SIZE_T_SIZE)
      ∧ (∀ heapStart incrementSize index : Nat,
          heapStart + index * incrementSize < SIZE_T_SIZE →
          get_descriptor_handle_d3d12 heapStart incrementSize index
            = heapStart + index * incrementSize)
      ∧ (∀ (ws : windowsize) (env : StartupEnv) (r : Handles) (s : State),
          startup ws env = StartupResult.ready r s → ∀ i, i < NUM_RENDERTARGETS →
          Call.CreateRenderTargetView (r.targets i)
            (get_descriptor_handle_d3d12 r.heapStart r.rtvIncrement i) ∈ s.calls)
      ∧ (∀ (r : Handles) (ws : windowsize) (s : State) (env : DrawEnv),
          Reachable r ws s → 0 < r.rtvIncrement → r.rtvIncrement < UINT32_SIZE →
          s.frameIndex < NUM_RENDERTARGETS →
          SUCCEEDED env.allocatorReset = true → SUCCEEDED env.cmdlistReset = true →
          (newCalls s (draw r ws env s)).filterMap Call.boundTarget?
              = [get_descriptor_handle_d3d12 r.heapStart r.rtvIncrement s.frameIndex]
            ∧ (∀ b ∈ recordedBarriers s (draw r ws env s),
                b.pResource = r.targets s.frameIndex)
            ∧ viewAt s.calls
                (get_descriptor_handle_d3d12 r.heapStart r.rtvIncrement s.frameIndex)
              = some (r.targets s.frameIndex)) := by
  refine ⟨?_, ?_, ?_, ?_⟩
  · intro heapStart incrementSize index hs
    unfold get_descriptor_handle_d3d12
    split
    · exact Nat.add_mod_mod _ _ _
    · rename_i h0
      have : index = 0 := by omega
      subst this
      simp [Nat.mod_eq_of_lt hs]
  · intro heapStart incrementSize index hfit
    unfold get_descriptor_handle_d3d12
    split
    · rw [Nat.add_mod_mod, Nat.mod_eq_of_lt hfit]
    · rename_i h0
      have : index = 0 := by omega
      subst this
      simp
  · intro ws env r s hstart i hi
    have hviews := startup_views ws env r s hstart
      (get_descriptor_handle_d3d12 r.heapStart r.rtvIncrement i)
    have hmem : r.targets i ∈ s.calls.filterMap
        (Call.view? (get_descriptor_handle_d3d12 r.heapStart r.rtvIncrement i)) := by
      rw [hviews]
      have hcases : i = 0 ∨ i = 1 := by
        simp only [NUM_RENDERTARGETS] at hi
        omega
      rcases hcases with rfl | rfl <;> simp
    obtain ⟨c, hc, hview⟩ := List.mem_filterMap.mp hmem
    rw [← view?_eq_some _ _ c hview]
    exact hc
  · intro r ws s env hreach hpos hlt hidx h1 h2
    refine ⟨?_, ?_, reachable_view r ws s hreach hpos hlt _ hidx⟩
    · rw [newCalls_append s _ _ (draw_calls r ws env s)]
      simp [h1, h2, recordedCommands, Call.boundTarget?]
    · intro b hb
      unfold recordedBarriers at hb
      rw [newCalls_append s _ _ (draw_calls r ws env s)] at hb
      simp only [h1, h2, recordedCommands, Bool.not_true, Bool.false_eq_true, if_false,
        List.map_cons, List.map_nil, List.cons_append, List.nil_append, List.filterMap_cons,
        Call.barrier?, List.filterMap_nil, List.mem_cons, List.mem_singleton,
        List.not_mem_nil, or_false] at hb
      rcases hb with hb | hb <;> rw [hb]

theorem descriptor_handle_matches_view_witness :
    Reachable sampleHandles sampleWindow sampleReady
      ∧ sampleReady.frameIndex < NUM_RENDERTARGETS
      ∧ viewAt sampleReady.calls
          (get_descriptor_handle_d3d12 sampleHandles.heapStart sampleHandles.rtvIncrement
            sampleReady.frameIndex)
        = some (sampleHandles.targets sampleReady.frameIndex) :=
  ⟨Reachable.fenceCreated sampleEnv sampleReady rfl, by decide,
   (descriptor_handle_matches_view.2.2.2 sampleHandles sampleWindow sampleReady drawOk
      (Reachable.fenceCreated sampleEnv sampleReady rfl) (by decide) (by decide) (by decide)
      (by decide) (by decide)).2.2⟩

/-- C13: the input layout puts the position, 12 bytes, at offset 0 and the colour, 16
bytes, at offset 12; the two do not overlap and together fill the stride of the vertex
buffer view, 28 bytes; the size of the view is the size of the array copied into the
buffer, 84 = 3 x 28 bytes, which holds 21 floats; and each of the 3 vertices that
DrawInstanced(3, 1, 0, 0) reads lies within the buffer, the last one ending at its
end. -/
theorem vertex_layout_consistent (ws : windowsize) (env : StartupEnv) (r : Handles)
    (s : State) (frameIndex : Nat) (hstart : startup ws env = StartupResult.ready r s) :
    vertexFormat.map (fun e => (e.SemanticName, e.AlignedByteOffset, e.Format.byteSize))
        = [(Semantic.POSITION, 0, 12), (Semantic.COLOR, 12, 16)]
      ∧ vertexFormat.map D3D12_INPUT_ELEMENT_DESC.endOffset = [12, 28]
      ∧ r.vertexBufferView.StrideInBytes = 28
      ∧ r.vertexBufferView.SizeInBytes = 84
      ∧ r.vertexBufferView.SizeInBytes = 3 * r.vertexBufferView.StrideInBytes
      ∧ Call.memcpy r.vertexBufferView.SizeInBytes ∈ s.calls
      ∧ sizeof_float * r.vertexData.length = r.vertexBufferView.SizeInBytes
      ∧ Cmd.IASetVertexBuffers 0 1 r.vertexBufferView ∈ recordedCommands r frameIndex ws
      ∧ Cmd.DrawInstanced 3 1 0 0 ∈ recordedCommands r frameIndex ws
      ∧ (∀ k, k < 3 →
          (0 + k + 1) * r.vertexBufferView.StrideInBytes ≤ r.vertexBufferView.SizeInBytes)
      ∧ (0 + 3) * r.vertexBufferView.StrideInBytes = r.vertexBufferView.SizeInBytes := by
  obtain ⟨a, hcalls, _, _, _, _, hdata, hview⟩ := startup_ready_calls ws env r s hstart
  have hmem : Call.memcpy sizeof_vertices ∈ s.calls := by
    rw [hcalls]
    apply List.mem_append_right
    apply mem_stepCalls (deviceSteps env a)
      { calls := [Call.memcpy sizeof_vertices, Call.Unmap], ok := true,
        exitCode := returnFalse }
    · simp [deviceSteps]
    · simp
  rw [hview, hdata]
  refine ⟨by decide, by decide, rfl, rfl, rfl, hmem, ?_, ?_, ?_, ?_, rfl⟩
  · simp [vertices, sizeof_vertices]
  · simp [recordedCommands, hview]
  · simp [recordedCommands]
  · intro k hk
    simp only [sizeof_float, sizeof_vertices, vertices, List.length_cons, List.length_nil]
    omega

theorem vertex_layout_consistent_witness :
    startup sampleWindow sampleEnv = StartupResult.ready sampleHandles sampleReady
      ∧ sampleHandles.vertexBufferView.SizeInBytes
          = 3 * sampleHandles.vertexBufferView.StrideInBytes :=
  ⟨rfl,
   (vertex_layout_consistent sampleWindow sampleEnv sampleHandles sampleReady 0
      rfl).2.2.2.2.1⟩

theorem int_log_two_eq (x : ℚ) (e : ℤ) (hlo : (2 : ℚ) ^ e ≤ x) (hhi : x < 2 ^ (e + 1)) :
    Int.log 2 x = e := by
  have hx : 0 < x := lt_of_lt_of_le (by positivity) hlo
  have h1 : e ≤ Int.log 2 x := by
    rw [← Int.zpow_le_iff_le_log (by norm_num) hx]
    simpa using hlo
  have h2 : Int.log 2 x < e + 1 := by
    rw [← Int.lt_zpow_iff_log_lt (by norm_num) hx]
    simpa using hhi
  omega

theorem int_log_two_bounds (x : ℚ) (hx : 0 < x) :
    (2 : ℚ) ^ Int.log 2 x ≤ x ∧ x < 2 ^ (Int.log 2 x + 1) := by
  have h1 := Int.zpow_log_le_self (b := 2) (r := x) (by norm_num) hx
  have h2 := Int.lt_zpow_succ_log_self (b := 2) (by norm_num) x
  exact ⟨by simpa using h1, by simpa using h2⟩

theorem roundHalfEven_intCast (z : ℤ) : roundHalfEven (z : ℚ) = z := by
  simp [roundHalfEven]

theorem roundHalfEven_down (y : ℚ) (f : ℤ) (h1 : (f : ℚ) ≤ y) (h2 : y < f + 1 / 2) :
    roundHalfEven y = f := by
  have hf : ⌊y⌋ = f := Int.floor_eq_iff.mpr ⟨h1, by linarith⟩
  simp only [roundHalfEven, hf]
  rw [if_pos (by linarith)]

theorem roundHalfEven_up (y : ℚ) (f : ℤ) (h1 : (f : ℚ) + 1 / 2 < y) (h2 : y < f + 1) :
    roundHalfEven y = f + 1 := by
  have hf : ⌊y⌋ = f := Int.floor_eq_iff.mpr ⟨by linarith, h2⟩
  simp only [roundHalfEven, hf]
  rw [if_neg (by linarith), if_pos (by linarith)]

theorem roundHalfEven_tie_even (y : ℚ) (f : ℤ) (h1 : y = f + 1 / 2) (h2 : f % 2 = 0) :
    roundHalfEven y = f := by
  have hf : ⌊y⌋ = f := Int.floor_eq_iff.mpr ⟨by linarith, by linarith⟩
  simp only [roundHalfEven, hf]
  rw [if_neg (by linarith), if_neg (by linarith), if_pos h2]

theorem roundHalfEven_tie_odd (y : ℚ) (f : ℤ) (h1 : y = f + 1 / 2) (h2 : f % 2 ≠ 0) :
    roundHalfEven y = f + 1 := by
  have hf : ⌊y⌋ = f := Int.floor_eq_iff.mpr ⟨by linarith, by linarith⟩
  simp only [roundHalfEven, hf]
  rw [if_neg (by linarith), if_neg (by linarith), if_neg h2]

theorem roundHalfEven_bounds (y : ℚ) : ⌊y⌋ ≤ roundHalfEven y ∧ roundHalfEven y ≤ ⌊y⌋ + 1 := by
  unfold roundHalfEven
  split
  · omega
  · split
    · omega
    · split <;> omega

theorem roundFloat32Pos_eval (x : ℚ) (e m : ℤ) (hlo : (2 : ℚ) ^ e ≤ x) (hhi : x < 2 ^ (e + 1))
    (hm : roundHalfEven (x * 2 ^ (23 - e)) = m) :
    roundFloat32Pos x = m * 2 ^ (e - 23) := by
  unfold roundFloat32Pos
  rw [int_log_two_eq x e hlo hhi, hm]

theorem roundFloat32Pos_representable (n : ℕ) (j : ℤ) (hn : 0 < n) (hn' : n < 2 ^ 24) :
    roundFloat32Pos ((n : ℚ) * 2 ^ j) = (n : ℚ) * 2 ^ j := by
  have h2 : (0 : ℚ) < 2 := by norm_num
  have hx : (0 : ℚ) < (n : ℚ) * 2 ^ j := by positivity
  have hlt : (n : ℚ) * 2 ^ j < 2 ^ (24 + j) := by
    rw [zpow_add₀ (by norm_num : (2 : ℚ) ≠ 0)]
    apply mul_lt_mul_of_pos_right _ (by positivity)
    exact_mod_cast hn'
  have hE : Int.log 2 ((n : ℚ) * 2 ^ j) < 24 + j := by
    rw [← Int.lt_zpow_iff_log_lt (by norm_num) hx]
    simpa using hlt
  unfold roundFloat32Pos
  generalize Int.log 2 ((n : ℚ) * 2 ^ j) = E at hE
  obtain ⟨t, ht⟩ : ∃ t : ℕ, (t : ℤ) = j + 23 - E := ⟨(j + 23 - E).toNat, by omega⟩
  have hy : (n : ℚ) * 2 ^ j * 2 ^ (23 - E) = (((n * 2 ^ t : ℕ) : ℤ) : ℚ) := by
    rw [mul_assoc, ← zpow_add₀ (by norm_num : (2 : ℚ) ≠ 0),
      show j + (23 - E) = (t : ℤ) by omega, zpow_natCast]
    push_cast
    ring
  rw [hy, roundHalfEven_intCast]
  push_cast
  rw [mul_assoc, ← zpow_natCast, ← zpow_add₀ (by norm_num : (2 : ℚ) ≠ 0),
    show (t : ℤ) + (E - 23) = j by omega]

theorem roundFloat32Pos_mantissa (x : ℚ) (hx : 0 < x) :
    ∃ m : ℕ, 2 ^ 23 ≤ m ∧ m ≤ 2 ^ 24 ∧
      roundFloat32Pos x = (m : ℚ) * 2 ^ (Int.log 2 x - 23) := by
  obtain ⟨hlo, hhi⟩ := int_log_two_bounds x hx
  have hpos : (0 : ℚ) < 2 ^ (23 - Int.log 2 x) := by positivity
  have hy1 : (2 : ℚ) ^ (23 : ℤ) ≤ x * 2 ^ (23 - Int.log 2 x) := by
    have := mul_le_mul_of_nonneg_right hlo (le_of_lt hpos)
    rwa [← zpow_add₀ (by norm_num : (2 : ℚ) ≠ 0),
      show Int.log 2 x + (23 - Int.log 2 x) = 23 by omega] at this
  have hy2 : x * 2 ^ (23 - Int.log 2 x) < (2 : ℚ) ^ (24 : ℤ) := by
    have := mul_lt_mul_of_pos_right hhi hpos
    rwa [← zpow_add₀ (by norm_num : (2 : ℚ) ≠ 0),
      show Int.log 2 x + 1 + (23 - Int.log 2 x) = 24 by omega] at this
  obtain ⟨hb1, hb2⟩ := roundHalfEven_bounds (x * 2 ^ (23 - Int.log 2 x))
  have hf1 : (2 : ℤ) ^ 23 ≤ ⌊x * 2 ^ (23 - Int.log 2 x)⌋ := by
    apply Int.le_floor.mpr
    have : ((2 : ℤ) ^ 23 : ℤ) = ((2 : ℚ) ^ (23 : ℤ)) := by norm_num
    rw [this]
    exact hy1
  have hf2 : ⌊x * 2 ^ (23 - Int.log 2 x)⌋ < (2 : ℤ) ^ 24 := by
    apply Int.floor_lt.mpr
    have : ((2 : ℤ) ^ 24 : ℤ) = ((2 : ℚ) ^ (24 : ℤ)) := by norm_num
    rw [this]
    exact hy2
  refine ⟨(roundHalfEven (x * 2 ^ (23 - Int.log 2 x))).toNat, ?_, ?_, ?_⟩
  · omega
  · omega
  · unfold roundFloat32Pos
    congr 1
    have : 0 ≤ roundHalfEven (x * 2 ^ (23 - Int.log 2 x)) := by omega
    exact_mod_cast (Int.toNat_of_nonneg this).symm

/-- Scaling a float32 value by a power of two is exact. -/
theorem roundFloat32Pos_scale (x : ℚ) (hx : 0 < x) (j : ℤ) :
    roundFloat32Pos (2 ^ j * roundFloat32Pos x) = 2 ^ j * roundFloat32Pos x := by
  obtain ⟨m, hm1, hm2, hm⟩ := roundFloat32Pos_mantissa x hx
  rw [hm]
  rcases Nat.lt_or_ge m (2 ^ 24) with hlt | hge
  · have := roundFloat32Pos_representable m (Int.log 2 x - 23 + j) (by omega) hlt
    rw [show (2 : ℚ) ^ j * ((m : ℚ) * 2 ^ (Int.log 2 x - 23))
        = (m : ℚ) * 2 ^ (Int.log 2 x - 23 + j) by
      rw [zpow_add₀ (by norm_num : (2 : ℚ) ≠ 0)]; ring]
    exact this
  · have hmeq : m = 2 ^ 24 := le_antisymm hm2 hge
    have := roundFloat32Pos_representable 1 (Int.log 2 x + 1 + j) (by norm_num) (by norm_num)
    rw [show (2 : ℚ) ^ j * ((m : ℚ) * 2 ^ (Int.log 2 x - 23))
        = ((1 : ℕ) : ℚ) * 2 ^ (Int.log 2 x + 1 + j) by
      rw [hmeq, show Int.log 2 x + 1 + j = 24 + (Int.log 2 x - 23) + j by omega,
        zpow_add₀ (by norm_num : (2 : ℚ) ≠ 0), zpow_add₀ (by norm_num : (2 : ℚ) ≠ 0)]
      norm_num
      ring]
    exact this

theorem roundFloat32Pos_pos (x : ℚ) (hx : 0 < x) : 0 < roundFloat32Pos x := by
  obtain ⟨m, hm1, _, hm⟩ := roundFloat32Pos_mantissa x hx
  rw [hm]
  have : (0 : ℚ) < m := by
    have : 0 < m := by omega
    exact_mod_cast this
  positivity

theorem roundFloat32_nonneg (x : ℚ) (hx : 0 ≤ x) : 0 ≤ roundFloat32 x := by
  unfold roundFloat32
  split
  · rename_i h
    exact le_of_lt (roundFloat32Pos_pos x h)
  · rw [if_neg (by linarith)]

/-- Multiplying a non-negative float32 value by a power of two, or by its negative, is exact. -/
theorem roundFloat32_scale (x : ℚ) (hx : 0 ≤ x) (j : ℤ) :
    roundFloat32 (2 ^ j * roundFloat32 x) = 2 ^ j * roundFloat32 x
      ∧ roundFloat32 (-(2 ^ j) * roundFloat32 x) = -(2 ^ j) * roundFloat32 x := by
  have hj : (0 : ℚ) < 2 ^ j := by positivity
  rcases eq_or_lt_of_le hx with h0 | hpos
  · have hz : roundFloat32 x = 0 := by
      rw [← h0]
      simp [roundFloat32]
    rw [hz]
    simp [roundFloat32]
  · have hr : roundFloat32 x = roundFloat32Pos x := by
      rw [roundFloat32, if_pos hpos]
    have hrp := roundFloat32Pos_pos x hpos
    have hsc := roundFloat32Pos_scale x hpos j
    rw [hr]
    constructor
    · rw [roundFloat32, if_pos (by positivity)]
      exact hsc
    · have hneg : -(2 ^ j) * roundFloat32Pos x < 0 := by
        have : 0 < 2 ^ j * roundFloat32Pos x := by positivity
        linarith
      rw [roundFloat32, if_neg (by linarith), if_pos hneg]
      rw [show -(-(2 ^ j) * roundFloat32Pos x) = 2 ^ j * roundFloat32Pos x by ring, hsc]
      ring

theorem roundFloat32_natCast (n : ℕ) (hn : n < 2 ^ 24) : roundFloat32 (n : ℚ) = n := by
  rcases Nat.eq_zero_or_pos n with h0 | hpos
  · subst h0
    simp [roundFloat32]
  · have hq : (0 : ℚ) < n := by exact_mod_cast hpos
    rw [roundFloat32, if_pos hq]
    have := roundFloat32Pos_representable n 0 hpos hn
    simpa using this


theorem toFloat32_nonneg (n : Nat) : 0 ≤ toFloat32 n :=
  roundFloat32_nonneg _ (Nat.cast_nonneg n)

theorem toFloat32_exact (n : Nat) (hn : n < 2 ^ 24) : toFloat32 n = n :=
  roundFloat32_natCast n hn

/-- The products of lines 594-596 are exact: a float32 value times 0.25 needs no
rounding. -/
theorem fmul_quarter (x : ℚ) (hx : 0 ≤ x) :
    fmul 0.25 (roundFloat32 x) = 0.25 * roundFloat32 x
      ∧ fmul (-0.25) (roundFloat32 x) = -0.25 * roundFloat32 x := by
  have h := roundFloat32_scale x hx (-2)
  have hq : (2 : ℚ) ^ (-2 : ℤ) = 0.25 := by norm_num
  rw [hq] at h
  exact h

/-- The vertex array for an aspect that is a float32 value. -/
theorem vertices_of_float (x : ℚ) (hx : 0 ≤ x) :
    vertices (roundFloat32 x)
      = [ 0, 0.25 * roundFloat32 x, 0, 1, 0, 0, 0,
          0.25, -0.25 * roundFloat32 x, 0, 0, 1, 0, 0,
          -0.25, -0.25 * roundFloat32 x, 0, 0, 0, 1, 0 ] := by
  obtain ⟨h1, h2⟩ := fmul_quarter x hx
  simp only [vertices, h1, h2]
  norm_num

theorem aspectOf_float (ws : windowsize) :
    aspectOf ws = roundFloat32 (toFloat32 ws.width / toFloat32 ws.height)
      ∧ 0 ≤ toFloat32 ws.width / toFloat32 ws.height :=
  ⟨rfl, div_nonneg (toFloat32_nonneg _) (toFloat32_nonneg _)⟩

theorem vertices_aspectOf (ws : windowsize) :
    vertices (aspectOf ws)
      = [ 0, 0.25 * aspectOf ws, 0, 1, 0, 0, 0,
          0.25, -0.25 * aspectOf ws, 0, 0, 1, 0, 0,
          -0.25, -0.25 * aspectOf ws, 0, 0, 0, 1, 0 ] := by
  obtain ⟨h1, h2⟩ := aspectOf_float ws
  rw [h1]
  exact vertices_of_float _ h2

/-- What the input assembler reads from the vertex array: three positions and three
colours. -/
theorem vertices_elements (data : List ℚ) (a : ℚ)
    (h : data = [ 0, 0.25 * a, 0, 1, 0, 0, 0, 0.25, -0.25 * a, 0, 0, 1, 0, 0,
                  -0.25, -0.25 * a, 0, 0, 0, 1, 0 ]) :
    (List.range 3).map (vertexPosition data)
        = [[0, 0.25 * a, 0], [0.25, -0.25 * a, 0], [-0.25, -0.25 * a, 0]]
      ∧ (List.range 3).map (vertexColor data)
        = [[1, 0, 0, 0], [0, 1, 0, 0], [0, 0, 1, 0]] := by
  subst h
  constructor
  · norm_num [List.range, List.range.loop, vertexPosition, vertexFormat, elementOf, floatsAt,
      sizeof_float, DXGI_FORMAT.byteSize]
  · norm_num [List.range, List.range.loop, vertexColor, vertexFormat, elementOf, floatsAt,
      sizeof_float, DXGI_FORMAT.byteSize]

/-- The aspect of two windows of the same ratio whose sizes are below `2 ^ 24`, where
the conversions to float32 are exact. -/
theorem aspectOf_eq_of_cross (ws ws' : windowsize) (hh : 0 < ws.height) (hh' : 0 < ws'.height)
    (hw : ws.width < 2 ^ 24) (hw' : ws'.width < 2 ^ 24)
    (hl : ws.height < 2 ^ 24) (hl' : ws'.height < 2 ^ 24)
    (h : ws.width * ws'.height = ws'.width * ws.height) : aspectOf ws = aspectOf ws' := by
  unfold aspectOf fdiv
  rw [toFloat32_exact _ hw, toFloat32_exact _ hw', toFloat32_exact _ hl, toFloat32_exact _ hl']
  congr 1
  have h1 : (ws.height : ℚ) ≠ 0 := by exact_mod_cast Nat.pos_iff_ne_zero.mp hh
  have h2 : (ws'.height : ℚ) ≠ 0 := by exact_mod_cast Nat.pos_iff_ne_zero.mp hh'
  rw [div_eq_div_iff h1 h2]
  exact_mod_cast h

/-- The aspect the program computes for its window of 1280 x 720: the float32 nearest
to 16/9. -/
theorem aspectOf_sampleWindow : aspectOf sampleWindow = 14913081 / 8388608 := by
  have hw : toFloat32 1280 = 1280 := by
    have := toFloat32_exact 1280 (by norm_num)
    simpa using this
  have hh : toFloat32 720 = 720 := by
    have := toFloat32_exact 720 (by norm_num)
    simpa using this
  show fdiv (toFloat32 1280) (toFloat32 720) = _
  rw [hw, hh, fdiv, roundFloat32, if_pos (by norm_num),
    roundFloat32Pos_eval _ 0 14913081 (by norm_num) (by norm_num)
      (roundHalfEven_up _ 14913080 (by norm_num) (by norm_num))]
  norm_num

theorem aspectOf_wideWindow : aspectOf wideWindow = 16777216 := by
  have hw : toFloat32 16777217 = 16777216 := by
    rw [toFloat32, roundFloat32, if_pos (by norm_num),
      roundFloat32Pos_eval _ 24 8388608 (by norm_num) (by norm_num)
        (roundHalfEven_tie_even _ 8388608 (by norm_num) (by norm_num))]
    norm_num
  have hh : toFloat32 1 = 1 := by
    have := toFloat32_exact 1 (by norm_num)
    simpa using this
  show fdiv (toFloat32 16777217) (toFloat32 1) = _
  rw [hw, hh, fdiv, roundFloat32, if_pos (by norm_num),
    roundFloat32Pos_eval _ 24 8388608 (by norm_num) (by norm_num)
      (roundHalfEven_down _ 8388608 (by norm_num) (by norm_num))]
  norm_num

theorem aspectOf_tripleWindow : aspectOf tripleWindow = 16777218 := by
  have hw : toFloat32 50331651 = 50331652 := by
    rw [toFloat32, roundFloat32, if_pos (by norm_num),
      roundFloat32Pos_eval _ 25 12582913 (by norm_num) (by norm_num)
        (roundHalfEven_up _ 12582912 (by norm_num) (by norm_num))]
    norm_num
  have hh : toFloat32 3 = 3 := by
    have := toFloat32_exact 3 (by norm_num)
    simpa using this
  show fdiv (toFloat32 50331651) (toFloat32 3) = _
  rw [hw, hh, fdiv, roundFloat32, if_pos (by norm_num),
    roundFloat32Pos_eval _ 24 8388609 (by norm_num) (by norm_num)
      (roundHalfEven_up _ 8388608 (by norm_num) (by norm_num))]
  norm_num

/-- C12, as the code has it: for every window width w and height h > 0, with a the
float32 aspect of line 590, that is the quotient of the two sizes converted to float32,
rounded to float32, the data that startup uploads to the vertex buffer are, in this
order, the positions (0, 0.25a, 0), (0.25, -0.25a, 0), (-0.25, -0.25a, 0), each
followed by its colour (1,0,0,0), (0,1,0,0), (0,0,1,0); the data depend on the window
through a alone; and two window sizes of the same ratio w / h give the same data when
all four sizes are below 2 ^ 24, where the conversions to float32 are exact. -/
theorem vertex_data_from_aspect (ws : windowsize) (env : StartupEnv) (r : Handles) (s : State)
    (hh : 0 < ws.height) (hstart : startup ws env = StartupResult.ready r s) :
    aspectOf ws
        = roundFloat32 (roundFloat32 (ws.width : ℚ) / roundFloat32 (ws.height : ℚ))
      ∧ r.vertexData
        = [ 0, 0.25 * aspectOf ws, 0, 1, 0, 0, 0,
            0.25, -0.25 * aspectOf ws, 0, 0, 1, 0, 0,
            -0.25, -0.25 * aspectOf ws, 0, 0, 0, 1, 0 ]
      ∧ (List.range 3).map (vertexPosition r.vertexData)
        = [ [0, 0.25 * aspectOf ws, 0], [0.25, -0.25 * aspectOf ws, 0],
            [-0.25, -0.25 * aspectOf ws, 0] ]
      ∧ (List.range 3).map (vertexColor r.vertexData)
        = [[1, 0, 0, 0], [0, 1, 0, 0], [0, 0, 1, 0]]
      ∧ (∀ (ws' : windowsize) (env' : StartupEnv) (r' : Handles) (s' : State),
          startup ws' env' = StartupResult.ready r' s' → aspectOf ws' = aspectOf ws →
          r'.vertexData = r.vertexData)
      ∧ (∀ (ws' : windowsize) (env' : StartupEnv) (r' : Handles) (s' : State),
          startup ws' env' = StartupResult.ready r' s' → 0 < ws'.height →
          ws.width < 2 ^ 24 → ws.height < 2 ^ 24 → ws'.width < 2 ^ 24 → ws'.height < 2 ^ 24 →
          ws.width * ws'.height = ws'.width * ws.height →
          r'.vertexData = r.vertexData) := by
  obtain ⟨_, _, _, _, _, _, hdata, _⟩ := startup_ready_calls ws env r s hstart
  have hv := vertices_aspectOf ws
  have hel := vertices_elements (vertices (aspectOf ws)) (aspectOf ws) hv
  rw [hdata]
  refine ⟨rfl, hv, hel.1, hel.2, ?_, ?_⟩
  · intro ws' env' r' s' hstart' ha
    obtain ⟨_, _, _, _, _, _, hdata', _⟩ := startup_ready_calls ws' env' r' s' hstart'
    rw [hdata', ha]
  · intro ws' env' r' s' hstart' hh' hw hl hw' hl' hcross
    obtain ⟨_, _, _, _, _, _, hdata', _⟩ := startup_ready_calls ws' env' r' s' hstart'
    rw [hdata', aspectOf_eq_of_cross ws ws' hh hh' hw hw' hl hl' hcross]

theorem vertex_data_from_aspect_witness :
    0 < sampleWindow.height
      ∧ startup sampleWindow sampleEnv = StartupResult.ready sampleHandles sampleReady
      ∧ sampleHandles.vertexData
        = [ 0, 14913081 / 33554432, 0, 1, 0, 0, 0,
            0.25, -(14913081 / 33554432), 0, 0, 1, 0, 0,
            -0.25, -(14913081 / 33554432), 0, 0, 0, 1, 0 ] := by
  refine ⟨by decide, rfl, ?_⟩
  rw [(vertex_data_from_aspect sampleWindow sampleEnv sampleHandles sampleReady
    (by decide) rfl).2.1, aspectOf_sampleWindow]
  norm_num

/-- C12 as stated fails: for the program's own window of 1280 x 720 the uploaded y of
the first vertex is 14913081/33554432, a quarter of the float32 nearest to 16/9, not
0.25 * (1280 / 720) = 4/9; and the windows of 16777217 x 1 and of 50331651 x 3, which have
the same aspect ratio, get different data, their float32 aspects being 16777216 and
16777218. -/
theorem vertex_data_rounded :
    startup sampleWindow sampleEnv = StartupResult.ready sampleHandles sampleReady
      ∧ vertexPosition sampleHandles.vertexData 0 = [0, 14913081 / 33554432, 0]
      ∧ (14913081 / 33554432 : ℚ) ≠ 0.25 * ((1280 : ℚ) / 720)
      ∧ wideWindow.width * tripleWindow.height = tripleWindow.width * wideWindow.height
      ∧ startup wideWindow sampleEnv
          = StartupResult.ready
              { sampleHandles with vertexData := vertices (aspectOf wideWindow) } sampleReady
      ∧ startup tripleWindow sampleEnv
          = StartupResult.ready
              { sampleHandles with vertexData := vertices (aspectOf tripleWindow) } sampleReady
      ∧ vertexPosition (vertices (aspectOf wideWindow)) 0 = [0, 4194304, 0]
      ∧ vertexPosition (vertices (aspectOf tripleWindow)) 0 = [0, 4194304 + 1 / 2, 0] := by
  have hs := vertices_aspectOf sampleWindow
  have hw := vertices_aspectOf wideWindow
  have ht := vertices_aspectOf tripleWindow
  rw [aspectOf_sampleWindow] at hs
  rw [aspectOf_wideWindow] at hw
  rw [aspectOf_tripleWindow] at ht
  refine ⟨rfl, ?_, by norm_num, by decide, rfl, rfl, ?_, ?_⟩
  · show vertexPosition (vertices (aspectOf sampleWindow)) 0 = _
    rw [aspectOf_sampleWindow, hs]
    norm_num [vertexPosition, vertexFormat, elementOf, floatsAt, sizeof_float,
      DXGI_FORMAT.byteSize]
  · rw [aspectOf_wideWindow, hw]
    norm_num [vertexPosition, vertexFormat, elementOf, floatsAt, sizeof_float,
      DXGI_FORMAT.byteSize]
  · rw [aspectOf_tripleWindow, ht]
    norm_num [vertexPosition, vertexFormat, elementOf, floatsAt, sizeof_float,
      DXGI_FORMAT.byteSize]

theorem rat_sq_ne_three (q : ℚ) : q ^ 2 ≠ 3 := by
  intro h
  have h3 : Irrational (Real.sqrt 3) := by
    have := Nat.prime_three.irrational_sqrt
    simpa using this
  apply h3
  refine ⟨|q|, ?_⟩
  have hq : ((q : ℝ)) ^ 2 = 3 := by exact_mod_cast h
  rw [← hq, Real.sqrt_sq_eq_abs]
  simp

theorem roundFloat32_pos (x : ℚ) (hx : 0 < x) : 0 < roundFloat32 x := by
  rw [roundFloat32, if_pos hx]
  exact roundFloat32Pos_pos x hx

theorem aspectOf_pos (ws : windowsize) (hw : 0 < ws.width) (hh : 0 < ws.height) :
    0 < aspectOf ws := by
  have h1 : 0 < toFloat32 ws.width := roundFloat32_pos _ (by exact_mod_cast hw)
  have h2 : 0 < toFloat32 ws.height := roundFloat32_pos _ (by exact_mod_cast hh)
  exact roundFloat32_pos _ (div_pos h1 h2)

theorem sideSquares_vertices (ws : windowsize) :
    sideSquares ws (vertices (aspectOf ws))
      = [ (ws.width : ℚ) ^ 2 / 64 + (aspectOf ws * (ws.height : ℚ)) ^ 2 / 16,
          (ws.width : ℚ) ^ 2 / 16,
          (ws.width : ℚ) ^ 2 / 64 + (aspectOf ws * (ws.height : ℚ)) ^ 2 / 16 ] := by
  rw [vertices_aspectOf]
  simp only [sideSquares, sqDist, toPixel, vertexPosition, vertexFormat, elementOf, floatsAt,
    sizeof_float, DXGI_FORMAT.byteSize]
  norm_num
  refine ⟨?_, ?_, ?_⟩ <;> ring

theorem sides_not_equal (w y : ℚ) (hw : 0 < w) : w ^ 2 / 64 + y ^ 2 / 16 ≠ w ^ 2 / 16 := by
  intro h
  apply rat_sq_ne_three (2 * y / w)
  have hw' : w ≠ 0 := ne_of_gt hw
  field_simp
  field_simp at h
  linarith

/-- C14, as the code has it: for the window size w x h used at creation (w, h > 0),
with a the float32 aspect of line 590, the three uploaded positions mapped from
normalised device coordinates to pixel space (x scaled by w/2, y scaled by h/2) form a
triangle whose two sides at the top vertex have the same squared length
w^2/64 + (a h)^2/16 and whose base has squared length w^2/16; the two values differ
for every window size, so the triangle is isosceles and never equilateral; and where the
float32 aspect is exact (a h = w) they are 5/64 w^2 and 1/16 w^2.  The aspect a is
positive, so the top vertex lies above the base. -/
theorem triangle_isosceles_in_pixels (ws : windowsize) (env : StartupEnv) (r : Handles)
    (s : State) (hw : 0 < ws.width) (hh : 0 < ws.height)
    (hstart : startup ws env = StartupResult.ready r s) :
    0 < aspectOf ws
      ∧ sideSquares ws r.vertexData
        = [ (ws.width : ℚ) ^ 2 / 64 + (aspectOf ws * (ws.height : ℚ)) ^ 2 / 16,
            (ws.width : ℚ) ^ 2 / 16,
            (ws.width : ℚ) ^ 2 / 64 + (aspectOf ws * (ws.height : ℚ)) ^ 2 / 16 ]
      ∧ (ws.width : ℚ) ^ 2 / 64 + (aspectOf ws * (ws.height : ℚ)) ^ 2 / 16
          ≠ (ws.width : ℚ) ^ 2 / 16
      ∧ (aspectOf ws * (ws.height : ℚ) = (ws.width : ℚ) →
          sideSquares ws r.vertexData
            = [ 5 / 64 * (ws.width : ℚ) ^ 2, 1 / 16 * (ws.width : ℚ) ^ 2,
                5 / 64 * (ws.width : ℚ) ^ 2 ]) := by
  obtain ⟨_, _, _, _, _, _, hdata, _⟩ := startup_ready_calls ws env r s hstart
  rw [hdata, sideSquares_vertices]
  refine ⟨aspectOf_pos ws hw hh, rfl, sides_not_equal _ _ (by exact_mod_cast hw), ?_⟩
  intro ha
  rw [ha]
  refine congrArg₂ List.cons (by ring) (congrArg₂ List.cons (by ring)
    (congrArg₂ List.cons (by ring) rfl))

theorem triangle_isosceles_in_pixels_witness :
    0 < sampleWindow.width ∧ 0 < sampleWindow.height
      ∧ startup sampleWindow sampleEnv = StartupResult.ready sampleHandles sampleReady
      ∧ sideSquares sampleWindow sampleHandles.vertexData
        = [ 562949960132198425 / 4398046511104, 102400,
            562949960132198425 / 4398046511104 ] := by
  refine ⟨by decide, by decide, rfl, ?_⟩
  rw [(triangle_isosceles_in_pixels sampleWindow sampleEnv sampleHandles sampleReady
    (by decide) (by decide) rfl).2.1, aspectOf_sampleWindow]
  norm_num [sampleWindow]

/-- C14 as stated fails: for the program's own window of 1280 x 720 the squared lengths of
the sides, in pixel space, are 562949960132198425/4398046511104 (a little under 128000),
102400 and 562949960132198425/4398046511104: the first two differ. -/
theorem triangle_sides_differ :
    startup sampleWindow sampleEnv = StartupResult.ready sampleHandles sampleReady
      ∧ sideSquares sampleWindow sampleHandles.vertexData
        = [ 562949960132198425 / 4398046511104, 102400,
            562949960132198425 / 4398046511104 ]
      ∧ (562949960132198425 / 4398046511104 : ℚ) ≠ 102400 := by
  refine ⟨rfl, ?_, by norm_num⟩
  show sideSquares sampleWindow (vertices (aspectOf sampleWindow)) = _
  rw [sideSquares_vertices, aspectOf_sampleWindow]
  norm_num [sampleWindow]

/-- A call of wait_for_frame whose signal succeeds, made while the counter is ahead,
returns only when the GPU has executed everything submitted: the queue is empty and
the fence is at the value signalled. -/
theorem wait_for_frame_drains_queue (env : WaitEnv) (s s' : State)
    (h : wait_for_frame env s = some s') (hs : SUCCEEDED env.signal = true)
    (hinv : CounterAhead s) :
    s'.queue = [] ∧ s'.completed = s.fenceValue := by
  have hsync := gpuRun_sync env.gpuSteps s.queue s.completed s.fenceValue hinv.1 hinv.2
  unfold wait_for_frame at h
  simp only [hs, Bool.not_true, Bool.false_eq_true, if_false] at h
  split at h
  · rename_i hlt
    rcases hsync with ⟨heq, _⟩ | ⟨_, q', hq', hlt'⟩
    · omega
    · split at h
      · split at h
        · cases h
        · rename_i g' hw
          rw [hq', waitEvent_sync q' _ _ hlt hlt'] at hw
          cases hw
          cases h
          exact ⟨rfl, rfl⟩
      · cases h
  · rename_i hge
    simp only [not_lt] at hge
    rcases hsync with ⟨heq, hnil⟩ | ⟨hlt, _⟩
    · cases h
      exact ⟨hnil, heq⟩
    · omega

/-- Over a sequence of frames the counter stays ahead, and grows by the number of
signals that succeeded, as long as that number does not take it to `2 ^ 32`. -/
theorem paints_counterAhead_signals (r : Handles) (ws : windowsize) (frames : List PaintEnv)
    (s0 s : State) (h : paints r ws frames s0 = some s) (hinv : CounterAhead s0)
    (hwrap : s0.fenceValue + frames.countP (fun e => SUCCEEDED e.wait.signal) < UINT32_SIZE) :
    CounterAhead s
      ∧ s.fenceValue = s0.fenceValue + frames.countP (fun e => SUCCEEDED e.wait.signal) := by
  induction frames generalizing s0 with
  | nil =>
    simp only [paints, Option.some.injEq] at h
    subst h
    exact ⟨hinv, rfl⟩
  | cons e es ih =>
    obtain ⟨s1, h1, h2⟩ := paints_cons r ws e es s0 s h
    simp only [WindowProc] at h1
    have hfv := (draw_fields r ws e.draw s0).1
    have hd := draw_counterAhead r ws e.draw s0 hinv
    obtain ⟨_, _, _, hok, hfail⟩ := wait_for_frame_spec e.wait _ s1 h1
    cases hs : SUCCEEDED e.wait.signal
    · simp only [List.countP_cons, hs, Bool.false_eq_true, if_false, Nat.add_zero] at hwrap ⊢
      obtain ⟨hf1, hf2, hf3, _, _⟩ := hfail hs
      have hinv1 : CounterAhead s1 := by
        unfold CounterAhead
        rw [hf1, hf2, hf3]
        exact hd
      obtain ⟨hinv2, hfv2⟩ := ih s1 h2 hinv1 (by rw [hf1, hfv]; exact hwrap)
      exact ⟨hinv2, by rw [hfv2, hf1, hfv]⟩
    · simp only [List.countP_cons, hs, if_true] at hwrap ⊢
      have hlt : (draw r ws e.draw s0).fenceValue + 1 < UINT32_SIZE := by
        rw [hfv]
        omega
      have hinv1 := (wait_for_frame_drains e.wait _ s1 h1 hs hd hlt).2.2
      have hf1 : s1.fenceValue = s0.fenceValue + 1 := by
        rw [(hok hs).1, hfv]
        exact Nat.mod_eq_of_lt (by rw [hfv] at hlt; exact hlt)
      obtain ⟨hinv2, hfv2⟩ := ih s1 h2 hinv1 (by rw [hf1]; omega)
      exact ⟨hinv2, by rw [hfv2, hf1]; omega⟩

/-- The counter is ahead after startup and the first call of wait_for_frame, and after
any frames that follow, as long as fewer than `2 ^ 32 - 1` signals have succeeded. -/
theorem run_counterAhead (ws : windowsize) (env : StartupEnv) (first : WaitEnv)
    (frames : List PaintEnv) (r : Handles) (sr s0 s : State)
    (hstart : startup ws env = StartupResult.ready r sr)
    (hfirst : wait_for_frame first sr = some s0)
    (hrun : paints r ws frames s0 = some s)
    (hwrap : successfulSignals first frames + 1 < UINT32_SIZE) :
    CounterAhead s ∧ s.fenceValue = 1 + successfulSignals first frames := by
  obtain ⟨hfv, hc, hq, _⟩ := startup_ready ws env r sr hstart
  have hfv1 : sr.fenceValue = 1 := by rw [hfv]; rfl
  have hinvr : CounterAhead sr := by
    unfold CounterAhead
    rw [hc, hq, hfv1]
    exact ⟨Nat.zero_lt_one, fun v hv => by cases hv⟩
  have hinv0 : CounterAhead s0 :=
    wait_for_frame_counterAhead first sr s0 hfirst hinvr (by rw [hfv1]; decide)
  obtain ⟨_, _, _, hok, hfail⟩ := wait_for_frame_spec first sr s0 hfirst
  have hfv0 : s0.fenceValue = 1 + (if SUCCEEDED first.signal then 1 else 0) := by
    cases hs : SUCCEEDED first.signal
    · rw [(hfail hs).1, hfv1]
      rfl
    · rw [(hok hs).1, hfv1]
      rfl
  unfold successfulSignals at hwrap ⊢
  obtain ⟨hinv, hfvs⟩ := paints_counterAhead_signals r ws frames s0 s hrun hinv0
    (by rw [hfv0]; omega)
  exact ⟨hinv, by rw [hfvs, hfv0]; omega⟩

/-- Short of wrap-around of the counter, the GPU queue is empty at every reset that
follows a successful signal: in an execution made of startup, the first wait and any
paint notifications, in which fewer than 2 ^ 32 signals have succeeded, whenever draw
is about to reset the allocator and the signal of the wait_for_frame call just before
succeeded (or no frame has been drawn yet), the GPU has executed every command list
submitted. -/
theorem queue_empty_at_reset (ws : windowsize) (env : StartupEnv) (first : WaitEnv)
    (frames : List PaintEnv) (r : Handles) (sr s0 s : State)
    (hstart : startup ws env = StartupResult.ready r sr)
    (hfirst : wait_for_frame first sr = some s0)
    (hrun : paints r ws frames s0 = some s)
    (hsig : ∀ e, frames.getLast? = some e → SUCCEEDED e.wait.signal = true)
    (hwrap : successfulSignals first frames < UINT32_SIZE) :
    s.queue = [] := by
  rcases List.eq_nil_or_concat frames with hnil | ⟨pre, e, hcat⟩
  · subst hnil
    simp only [paints, Option.some.injEq] at hrun
    subst hrun
    obtain ⟨hfv, hc, hq, _⟩ := startup_ready ws env r sr hstart
    have hfv1 : sr.fenceValue = 1 := by rw [hfv]; rfl
    have hinvr : CounterAhead sr := by
      unfold CounterAhead
      rw [hc, hq, hfv1]
      exact ⟨Nat.zero_lt_one, fun v hv => by cases hv⟩
    obtain ⟨_, _, _, hok, hfail⟩ := wait_for_frame_spec first sr s0 hfirst
    cases hs : SUCCEEDED first.signal
    · rw [(hfail hs).2.2.1, hq]
    · exact (wait_for_frame_drains_queue first sr s0 hfirst hs hinvr).1
  · rw [List.concat_eq_append] at hcat
    subst hcat
    obtain ⟨s1, h1, h2⟩ := paints_append r ws pre [e] s0 s hrun
    obtain ⟨s2, h3, h4⟩ := paints_cons r ws e [] s1 s h2
    simp only [paints, Option.some.injEq] at h4
    subst h4
    simp only [WindowProc] at h3
    have hlast : SUCCEEDED e.wait.signal = true := hsig e (by simp)
    have hpre : successfulSignals first pre + 1 < UINT32_SIZE := by
      unfold successfulSignals at hwrap ⊢
      simp only [List.countP_append, List.countP_cons, List.countP_nil, hlast, if_true] at hwrap
      omega
    obtain ⟨hinv1, _⟩ := run_counterAhead ws env first pre r sr s0 s1 hstart hfirst h1 hpre
    exact (wait_for_frame_drains_queue e.wait _ s2 h3 hlast
      (draw_counterAhead r ws e.draw s1 hinv1)).1

theorem gpuAdvance_nil (k : Nat) (s : State) (h : s.queue = []) :
    (gpuAdvance k s).queue = [] ∧ (gpuAdvance k s).completed = s.completed := by
  simp only [gpuAdvance, h, gpuRun_nil, and_self]

/-- A call of wait_for_frame made when the fence is already at the value of the counter
or beyond, as it is once the counter has wrapped around: the signal is queued and the
call returns without waiting, whatever is still in the queue. -/
theorem wait_for_frame_no_wait (env : WaitEnv) (s : State)
    (hs : SUCCEEDED env.signal = true) (hg : env.gpuSteps = 0)
    (hc : s.fenceValue ≤ s.completed) :
    ∃ s', wait_for_frame env s = some s'
      ∧ s'.queue = s.queue ++ [QueueItem.signal s.fenceValue]
      ∧ s'.completed = s.completed := by
  unfold wait_for_frame
  simp only [hs, hg, gpuRun, Bool.not_true, Bool.false_eq_true, if_false,
    Nat.not_lt.mpr hc]
  exact ⟨_, rfl, rfl, rfl⟩

theorem draw_queue_ok (r : Handles) (ws : windowsize) (s : State) :
    (draw r ws drawOk s).queue = s.queue ++ [QueueItem.exec] := by
  rfl

/-- C2, as the code has it: in an execution made of startup, the first wait and any
sequence of paint notifications in which fewer than 2 ^ 32 signals have succeeded,
whenever draw is about to reset the allocator and the signal of the wait_for_frame
call just before succeeded (or no frame has been drawn yet), the GPU has finished
consuming everything submitted, the previous recording included: its queue is empty,
and it stays so whatever the GPU does before the reset; and either nothing has been
submitted so far or a signal made after the most recent ExecuteCommandLists carries a
value that the fence has completed. -/
theorem reset_after_gpu_finished (ws : windowsize) (env : StartupEnv) (first : WaitEnv)
    (frames : List PaintEnv) (r : Handles) (sr s0 s : State)
    (hstart : startup ws env = StartupResult.ready r sr)
    (hfirst : wait_for_frame first sr = some s0)
    (hrun : paints r ws frames s0 = some s)
    (hsig : ∀ e, frames.getLast? = some e → SUCCEEDED e.wait.signal = true)
    (hwrap : successfulSignals first frames < UINT32_SIZE) (k : Nat) :
    s.queue = [] ∧ (gpuAdvance k s).queue = []
      ∧ resetIsSafe (gpuAdvance k s) = true := by
  have hq := queue_empty_at_reset ws env first frames r sr s0 s hstart hfirst hrun hsig hwrap
  exact ⟨hq, (gpuAdvance_nil k s hq).1,
    fence_condition_at_reset ws env first frames r sr s0 s hstart hfirst hrun hsig k⟩

theorem reset_after_gpu_finished_witness :
    startup sampleWindow sampleEnv = StartupResult.ready sampleHandles sampleReady
      ∧ (sampleFrames [frameSignalFails, frameOk]).isSome = true
      ∧ successfulSignals waitOk [frameSignalFails, frameOk] = 2
      ∧ ((sampleFrames [frameSignalFails, frameOk]).getD sampleState).queue = []
      ∧ (gpuAdvance 1 ((sampleFrames [frameSignalFails, frameOk]).getD sampleState)).queue = []
      ∧ resetIsSafe (gpuAdvance 1 ((sampleFrames [frameSignalFails, frameOk]).getD sampleState))
          = true :=
  ⟨rfl, rfl, rfl,
   reset_after_gpu_finished sampleWindow sampleEnv waitOk [frameSignalFails, frameOk]
     sampleHandles sampleReady
     ((wait_for_frame waitOk sampleReady).getD sampleState)
     ((sampleFrames [frameSignalFails, frameOk]).getD sampleState) rfl rfl rfl
     (fun e he => by
       simp only [List.getLast?_cons_cons, List.getLast?_singleton, Option.some.injEq] at he
       rw [← he]
       decide)
     (by decide) 1⟩

theorem sampleFrames_eq (frames : List PaintEnv) :
    sampleFrames frames
      = paints sampleHandles sampleWindow frames
          ((wait_for_frame waitOk sampleReady).getD sampleState) := by
  rfl

/-- The hypothesis on the number of signals is needed: after the sample startup and
2 ^ 32 - 1 frames in which every call succeeds, the counter has wrapped around to 0
while the fence is at 2 ^ 32 - 1; the last frame has signalled 0 and returned without
waiting, so that at the next reset the command list it submitted is still queued,
although the fence has completed the value signalled after it. -/
theorem reset_with_queue_after_wrap :
    successfulSignals waitOk (List.replicate 4294967295 frameOk) = UINT32_SIZE
      ∧ ∃ s, sampleFrames (List.replicate 4294967295 frameOk) = some s
          ∧ s.queue = [QueueItem.exec, QueueItem.signal 0]
          ∧ s.completed = 4294967295
          ∧ resetIsSafe (gpuAdvance 0 s) = true := by
  have hstart : startup sampleWindow sampleEnv = StartupResult.ready sampleHandles sampleReady :=
    rfl
  have hfirst : wait_for_frame waitOk sampleReady
      = some ((wait_for_frame waitOk sampleReady).getD sampleState) := rfl
  have hok : SUCCEEDED frameOk.wait.signal = true := rfl
  have hcount : ∀ n, (List.replicate n frameOk).countP (fun e => SUCCEEDED e.wait.signal) = n := by
    intro n
    rw [List.countP_replicate, if_pos hok]
  have hss : ∀ n, successfulSignals waitOk (List.replicate n frameOk) = 1 + n := by
    intro n
    unfold successfulSignals
    rw [hcount]
    rfl
  refine ⟨by rw [hss]; rfl, ?_⟩
  obtain ⟨s, hs⟩ := paints_returns sampleHandles sampleWindow (List.replicate 4294967295 frameOk)
    ((wait_for_frame waitOk sampleReady).getD sampleState)
    (fun e he => by rw [List.eq_of_mem_replicate he]; exact Or.inr rfl)
  refine ⟨s, by rw [sampleFrames_eq, hs], ?_⟩
  have hsplit : List.replicate 4294967295 frameOk
      = List.replicate 4294967293 frameOk ++ [frameOk] ++ [frameOk] := by
    rw [← List.replicate_succ', ← List.replicate_succ']
  rw [hsplit] at hs
  obtain ⟨s2, h2, h3⟩ := paints_append _ _ _ [frameOk] _ _ hs
  obtain ⟨s1, h1, h12⟩ := paints_append _ _ _ [frameOk] _ _ h2
  -- the state before the last two frames: the counter is at 2 ^ 32 - 1
  obtain ⟨hinv1, hfv1⟩ := run_counterAhead sampleWindow sampleEnv waitOk
    (List.replicate 4294967293 frameOk) sampleHandles sampleReady _ s1 hstart hfirst h1
    (by rw [hss]; decide)
  rw [hss] at hfv1
  -- the frame that signals 2 ^ 32 - 1 and wraps the counter
  obtain ⟨s2', h12', h12''⟩ := paints_cons _ _ _ [] _ _ h12
  simp only [paints, Option.some.injEq] at h12''
  subst h12''
  simp only [WindowProc] at h12'
  have hd1 := draw_fields sampleHandles sampleWindow frameOk.draw s1
  obtain ⟨hq2, hc2⟩ := wait_for_frame_drains_queue frameOk.wait _ s2' h12' hok
    (draw_counterAhead sampleHandles sampleWindow frameOk.draw s1 hinv1)
  obtain ⟨_, _, _, hok2, _⟩ := wait_for_frame_spec frameOk.wait _ s2' h12'
  have hfv2 : s2'.fenceValue = 0 := by
    rw [(hok2 hok).1, hd1.1, hfv1]
    rfl
  rw [hd1.1, hfv1] at hc2
  -- the frame that signals 0
  obtain ⟨s3, h23, h3'⟩ := paints_cons _ _ _ [] _ _ h3
  simp only [paints, Option.some.injEq] at h3'
  subst h3'
  simp only [WindowProc] at h23
  have hd2 := draw_fields sampleHandles sampleWindow frameOk.draw s2'
  obtain ⟨s', hw, hq', hc'⟩ := wait_for_frame_no_wait frameOk.wait
    (draw sampleHandles sampleWindow frameOk.draw s2') hok rfl
    (by rw [hd2.1, hd2.2.2, hfv2]; exact Nat.zero_le _)
  rw [hw] at h23
  cases h23
  refine ⟨?_, ?_, resetIsSafe_after_wait frameOk.wait _ _ hw hok 0⟩
  · rw [hq', hd2.1, hfv2]
    show (draw sampleHandles sampleWindow drawOk s2').queue ++ _ = _
    rw [draw_queue_ok, hq2]
    rfl
  · rw [hc', hd2.2.2, hc2]

theorem aspectOf_squareWindow : aspectOf squareWindow = 1 := by
  have hw : toFloat32 720 = 720 := by
    have := toFloat32_exact 720 (by norm_num)
    simpa using this
  have h1 : roundFloat32 1 = 1 := by
    have := roundFloat32_natCast 1 (by norm_num)
    simpa using this
  show fdiv (toFloat32 720) (toFloat32 720) = 1
  rw [hw, fdiv]
  norm_num
  exact h1

/-- C14, an instance in which the float32 aspect is exact: in a square window of
720 x 720 the squared sides are 40500, 32400 and 40500. -/
theorem triangle_sides_square_window :
    startup squareWindow sampleEnv
        = StartupResult.ready
            { sampleHandles with vertexData := vertices (aspectOf squareWindow) } sampleReady
      ∧ aspectOf squareWindow * (squareWindow.height : ℚ) = (squareWindow.width : ℚ)
      ∧ sideSquares squareWindow (vertices (aspectOf squareWindow)) = [40500, 32400, 40500] := by
  refine ⟨rfl, ?_, ?_⟩
  · rw [aspectOf_squareWindow]
    norm_num [squareWindow]
  · rw [sideSquares_vertices, aspectOf_squareWindow]
    norm_num [squareWindow]

/-- C12, an instance of the last part: the window of 2560 x 1440 has the aspect ratio of
the window of 1280 x 720, both below 2 ^ 24, and gets the same vertex data. -/
theorem double_window_same_data :
    startup doubleWindow sampleEnv
        = StartupResult.ready
            { sampleHandles with vertexData := vertices (aspectOf doubleWindow) } sampleReady
      ∧ vertices (aspectOf doubleWindow) = sampleHandles.vertexData := by
  refine ⟨rfl, ?_⟩
  rw [aspectOf_eq_of_cross doubleWindow sampleWindow (by decide) (by decide) (by decide)
    (by decide) (by decide) (by decide) (by decide)]
  rfl

end Triangle
